import Mathlib

/-
Verification development for the LIC Imaris Log Analyzer core
(source: LIC Imaris Log Analyzer/source/LogData.cpp).

The C++ code is shallowly embedded: each member function of LogData that the
claims touch becomes a Lean definition of the same name, vectors become lists,
std::string becomes String, size_t counters become Int (with the exact guarded
updates of the source), and code paths that throw become Except values.
Helper routines living in the repository's Utilities unit (not present under
src/) are modelled from the spec and marked as such in their doc comments.
-/

namespace LICLog

/-- Decimal rendering of an integer, modelling the repository's toString
helper (declared in Utilities, absent from src; the spec describes report
cells as plain display strings of the numeric counters). -/
def toStringI (i : Int) : String :=
  if i < 0 then "-" ++ Nat.repr i.natAbs else Nat.repr i.natAbs

/-- Numeric value of a decimal digit character. -/
def digitVal (c : Char) : Nat := c.toNat - 48

/-- Value of a list of decimal digit characters, most significant first. -/
def digitsToNat (l : List Char) : Nat :=
  l.foldl (fun a c => a * 10 + digitVal c) 0

/-- Model of the C standard library atoi used by the source: an optional
sign followed by the longest prefix of decimal digits; anything else
contributes zero. -/
def atoiM (s : String) : Int :=
  match s.data with
  | '-' :: rest => - (digitsToNat (rest.takeWhile Char.isDigit) : Int)
  | '+' :: rest => (digitsToNat (rest.takeWhile Char.isDigit) : Int)
  | l => (digitsToNat (l.takeWhile Char.isDigit) : Int)

/-- Split a character list at every occurrence of the delimiter character. -/
def splitCharList (d : Char) : List Char → List (List Char)
  | [] => [[]]
  | c :: rest =>
    if c = d then [] :: splitCharList d rest
    else
      match splitCharList d rest with
      | [] => [[c]]
      | h :: t => (c :: h) :: t

/-- Modelled from the spec: tokenizeString (declared in Utilities, absent
from src) splits a string on a delimiter, preserving field order and
discarding nothing but the delimiters; empty input yields an empty
sequence, so empty fields are dropped.  Every call in LogData.cpp passes a
single-character delimiter (whitespace, slash, colon or at-sign). -/
def tokenizeString (delim s : String) : List String :=
  ((splitCharList (delim.data.getD 0 ' ') s.data).map String.mk).filter (fun t => t ≠ "")

/-- Modelled from the spec: getUniqueItems (declared in Utilities, absent
from src) maintains an ordered set of distinct names in first-seen order. -/
def getUniqueItems (name : String) (list : List String) : List String :=
  if name ∈ list then list else list ++ [name]

/-- Helper for substring search: does the pattern occur in the character
list, at this position or later. -/
def containsAux (p : List Char) : List Char → Bool
  | [] => p.isPrefixOf []
  | c :: rest => p.isPrefixOf (c :: rest) || containsAux p rest

/-- Model of std::string::find(pat) != npos as used by findFileFormat. -/
def containsSub (s pat : String) : Bool :=
  containsAux pat.data s.data

/-- The fileFormat enumeration of LogData.h. -/
inductive FileFormat where
  | Invalid
  | ReportLog
  | ISVLog
deriving DecidableEq, Repr

/-- LogData::findFileFormat embedded over the raw line list.  Every line of
the file is visited in order (the linesToSearch cap computed by the C++ is
never used by its loop): a line containing the report-log marker selects
ReportLog; otherwise a line containing a slash, a colon, an opening and a
closing parenthesis but not the rlm tag is the unsupported ISV format and
throws InvalidFileFormatException; if the scan ends without a marker the
same exception is thrown.  Both throws are the single error kind here. -/
def findFileFormat : List String → Except Unit FileFormat
  | [] => .error ()
  | line :: rest =>
    if containsSub line "RLM Report Log Format" then .ok .ReportLog
    else if containsSub line "/" && containsSub line ":" &&
            containsSub line "(" && containsSub line ")" &&
            !containsSub line "(rlm)" then
      .error ()
    else findFileFormat rest

/-- The per-kind source-column schemas of LogData.h, in the order
LogData::getEventIndices pushes them (event kind column first). -/
def OUTindices : List Nat := [0, 16, 17, 1, 2, 4, 5, 8, 10, 9]

/-- Schema for IN rows (see RepINEventIndices). -/
def INindices : List Nat := [0, 11, 12, 2, 3, 4, 5, 8, 10, 9]

/-- Schema for DENY rows (see RepDENYEventIndices; count and reason share
source column 7). -/
def DENYindices : List Nat := [0, 10, 11, 1, 2, 3, 4, 7, 7]

/-- Schema for START rows (see RepSTARTEventIndices). -/
def STARTindices : List Nat := [0, 2, 3, 1]

/-- Schema for SHUTDOWN rows (see RepSHUTEventIndices). -/
def SHUTindices : List Nat := [0, 3, 4]

/-- Schema for PRODUCT rows (see the unnamed enum of LogData.h). -/
def PRODUCTindices : List Nat := [0, 1, 2, 4, 5]

/-- Errors the extraction can raise: EventDataException carries the 1-based
source row number; outOfRange stands for the std::out_of_range that
vector::at throws on an index past the end (not caught anywhere). -/
inductive ExtErr where
  | eventData (line : Nat)
  | outOfRange
deriving DecidableEq, Repr

/-- LogData::loadEventIntoVector: if the row has at least as many fields as
the schema has entries, project the row through the schema (each access is
vector::at, so an entry pointing past the row's end throws out_of_range);
otherwise throw EventDataException(row + 1). -/
def loadEventIntoVector (allDataRow : List String) (row : Nat)
    (indices : List Nat) : Except ExtErr (List String) :=
  if indices.length ≤ allDataRow.length then
    if indices.all (fun i => i < allDataRow.length) then
      .ok (indices.map (fun i => allDataRow.getD i ""))
    else .error .outOfRange
  else .error (.eventData (row + 1))

/-- Projection of a tokenized source row through a per-kind schema, as the
successful path of loadEventIntoVector computes it. -/
def rawRecord (row : List String) (indices : List Nat) : List String :=
  indices.map (fun i => row.getD i "")

/-- The mutable members of LogData that extractEvents reads and writes. -/
structure ExtractState where
  eventYear : String
  serverName : String
  eventData : List (List String)
  denialEvents : List (List String)
  startEvents : List (List String)
  shutdownEvents : List (List String)
  uniqueProducts : List String
  uniqueUsers : List String
  uniqueHosts : List String
  endTimeRow : Nat
deriving DecidableEq, Repr

/-- The state of a freshly constructed LogData before extraction: the year
string is empty and no events have been seen. -/
def initExtractState : ExtractState :=
  { eventYear := "", serverName := "", eventData := [], denialEvents := [],
    startEvents := [], shutdownEvents := [], uniqueProducts := [],
    uniqueUsers := [], uniqueHosts := [], endTimeRow := 0 }

/-- The year-rollover test of LogData::addYearToDate: when the date of the
just-projected record reads 01/01, tokenize its time on the colon; the
first two pieces are read with vector::at (short-circuited as in the C++
conjunction), and when both read 00 the ambient year is parsed with atoi,
incremented and rendered back to a string. -/
def bumpYear (year time date : String) : Except ExtErr String :=
  if date = "01/01" then
    match tokenizeString ":" time with
    | [] => .error .outOfRange
    | t0 :: rest =>
      if t0 = "00" then
        match rest with
        | [] => .error .outOfRange
        | t1 :: _ => .ok (if t1 = "00" then toStringI (atoiM year + 1) else year)
      else .ok year
  else .ok year

/-- Append a slash and the ambient year to the date field (position 1) of a
projected record, as the last line of LogData::addYearToDate does. -/
def stampDate (r : List String) (y : String) : List String :=
  r.set 1 (r.getD 1 "" ++ "/" ++ y)

/-- LogData::addYearToDate for the ReportLog format (the only format that
survives findFileFormat): operates in place on the last record of
eventData. -/
def addYearToDate (st : ExtractState) : Except ExtErr ExtractState :=
  let i := st.eventData.length - 1
  let r := st.eventData.getD i []
  match bumpYear st.eventYear (r.getD 2 "") (r.getD 1 "") with
  | .error e => .error e
  | .ok y =>
    .ok { st with eventYear := y, eventData := st.eventData.set i (stampDate r y) }

/-- Registration of the product, user and host of a projected OUT, IN or
DENY record into the three identity registries (the getUniqueItems calls
of the corresponding extractEvents branches). -/
def registerNames (st : ExtractState) (r : List String) : ExtractState :=
  { st with
    uniqueProducts := getUniqueItems (r.getD 3 "") st.uniqueProducts,
    uniqueUsers := getUniqueItems (r.getD 5 "") st.uniqueUsers,
    uniqueHosts := getUniqueItems (r.getD 6 "") st.uniqueHosts }

/-- The two-field year-marker check at the top of the extractEvents loop
body: a row of exactly two fields whose first field splits on slashes into
exactly three pieces updates the ambient year from the third piece. -/
def yearMarkerUpdate (st : ExtractState) (row : List String) : ExtractState :=
  if row.length = 2 then
    match tokenizeString "/" (row.getD 0 "") with
    | [_, _, y] => { st with eventYear := y }
    | _ => st
  else st

/-- The OUT branch of the extractEvents loop body. -/
def stepOUT (st : ExtractState) (idx : Nat) (row : List String) :
    Except ExtErr ExtractState :=
  match loadEventIntoVector row idx OUTindices with
  | .error e => .error e
  | .ok r =>
    match addYearToDate (registerNames { st with eventData := st.eventData ++ [r] } r) with
    | .error e => .error e
    | .ok st2 => .ok { st2 with endTimeRow := st2.eventData.length - 1 }

/-- The IN branch of the extractEvents loop body. -/
def stepIN (st : ExtractState) (idx : Nat) (row : List String) :
    Except ExtErr ExtractState :=
  match loadEventIntoVector row idx INindices with
  | .error e => .error e
  | .ok r =>
    match addYearToDate (registerNames { st with eventData := st.eventData ++ [r] } r) with
    | .error e => .error e
    | .ok st2 => .ok { st2 with endTimeRow := st2.eventData.length - 1 }

/-- The DENY branch of the extractEvents loop body: after stamping, the
stamped record is also appended to the denial side table. -/
def stepDENY (st : ExtractState) (idx : Nat) (row : List String) :
    Except ExtErr ExtractState :=
  match loadEventIntoVector row idx DENYindices with
  | .error e => .error e
  | .ok r =>
    match addYearToDate (registerNames { st with eventData := st.eventData ++ [r] } r) with
    | .error e => .error e
    | .ok st2 =>
      .ok { st2 with
        denialEvents := st2.denialEvents ++ [st2.eventData.getD (st2.eventData.length - 1) []],
        endTimeRow := st2.eventData.length - 1 }

/-- The START branch of the extractEvents loop body: captures the server
name, pushes the record into the start side table, and (ReportLog) resets
the ambient year from the third slash-separated piece of the raw date
column, read with vector::at. -/
def stepSTART (st : ExtractState) (idx : Nat) (row : List String) :
    Except ExtErr ExtractState :=
  match loadEventIntoVector row idx STARTindices with
  | .error e => .error e
  | .ok r =>
    let st1 := { st with
      eventData := st.eventData ++ [r],
      serverName := r.getD 3 "",
      startEvents := st.startEvents ++ [r] }
    match tokenizeString "/" (row.getD 2 "") with
    | _ :: _ :: y :: _ =>
      .ok { st1 with eventYear := y, endTimeRow := st1.eventData.length - 1 }
    | _ => .error .outOfRange

/-- The SHUTDOWN branch of the extractEvents loop body: the stamped record
is also appended to the shutdown side table. -/
def stepSHUT (st : ExtractState) (idx : Nat) (row : List String) :
    Except ExtErr ExtractState :=
  match loadEventIntoVector row idx SHUTindices with
  | .error e => .error e
  | .ok r =>
    match addYearToDate { st with eventData := st.eventData ++ [r] } with
    | .error e => .error e
    | .ok st2 =>
      .ok { st2 with
        shutdownEvents := st2.shutdownEvents ++ [st2.eventData.getD (st2.eventData.length - 1) []],
        endTimeRow := st2.eventData.length - 1 }

/-- The PRODUCT branch of the extractEvents loop body: registers the
product name only; no date stamping and no endTimeRow update. -/
def stepPRODUCT (st : ExtractState) (idx : Nat) (row : List String) :
    Except ExtErr ExtractState :=
  match loadEventIntoVector row idx PRODUCTindices with
  | .error e => .error e
  | .ok r =>
    .ok { st with
      eventData := st.eventData ++ [r],
      uniqueProducts := getUniqueItems (r.getD 1 "") st.uniqueProducts }

/-- One iteration of the extractEvents loop over a tokenized row: the
year-marker check runs first, then the row is dispatched on the field at
the event-kind position (column 0 for the ReportLog format) when the row
is long enough to have one. -/
def extractStep (st0 : ExtractState) (idx : Nat) (row : List String) :
    Except ExtErr ExtractState :=
  let st := yearMarkerUpdate st0 row
  if 0 < row.length then
    if row.getD 0 "" = "OUT" then stepOUT st idx row
    else if row.getD 0 "" = "IN" then stepIN st idx row
    else if row.getD 0 "" = "DENY" then stepDENY st idx row
    else if row.getD 0 "" = "START" then stepSTART st idx row
    else if row.getD 0 "" = "SHUTDOWN" then stepSHUT st idx row
    else if row.getD 0 "" = "PRODUCT" then stepPRODUCT st idx row
    else .ok st
  else .ok st

/-- LogData::extractEvents: fold the loop body over the tokenized rows in
file order, threading the ambient state. -/
def extractEvents (allData : List (List String)) : Except ExtErr ExtractState :=
  allData.enum.foldlM (fun st p => extractStep st p.1 p.2) initExtractState

theorem getD_append_length (l : List α) (a d : α) :
    (l ++ [a]).getD l.length d = a := by
  simp [List.getD_eq_getElem?_getD, List.getElem?_append_right]

theorem set_append_length (l : List α) (a b : α) :
    (l ++ [a]).set l.length b = l ++ [b] := by
  simp [List.set_append]

theorem load_ok_inv {row : List String} {idx : Nat} {indices : List Nat}
    {r : List String}
    (h : loadEventIntoVector row idx indices = .ok r) :
    indices.all (fun i => i < row.length) = true ∧ r = rawRecord row indices := by
  unfold loadEventIntoVector at h
  split at h
  · split at h
    · exact ⟨by assumption, by cases h; rfl⟩
    · cases h
  · cases h

theorem load_err_short {row : List String} {idx : Nat} {indices : List Nat}
    (h : row.length < indices.length) :
    loadEventIntoVector row idx indices = .error (.eventData (idx + 1)) := by
  unfold loadEventIntoVector
  rw [if_neg]
  omega

theorem load_ok_of {row : List String} (idx : Nat) {indices : List Nat}
    (h1 : indices.length ≤ row.length)
    (h2 : indices.all (fun i => i < row.length) = true) :
    loadEventIntoVector row idx indices = .ok (rawRecord row indices) := by
  unfold loadEventIntoVector
  rw [if_pos h1, if_pos h2]
  rfl

theorem addYearToDate_append_ok {st : ExtractState} {l : List (List String)}
    {r : List String} {y : String}
    (h : st.eventData = l ++ [r])
    (hb : bumpYear st.eventYear (r.getD 2 "") (r.getD 1 "") = .ok y) :
    addYearToDate st = .ok { st with eventYear := y, eventData := l ++ [stampDate r y] } := by
  unfold addYearToDate
  rw [h]
  simp only [List.length_append, List.length_cons, List.length_nil, Nat.add_sub_cancel,
    getD_append_length, set_append_length]
  rw [hb]

theorem addYearToDate_append_err {st : ExtractState} {l : List (List String)}
    {r : List String} {e : ExtErr}
    (h : st.eventData = l ++ [r])
    (hb : bumpYear st.eventYear (r.getD 2 "") (r.getD 1 "") = .error e) :
    addYearToDate st = .error e := by
  unfold addYearToDate
  rw [h]
  simp only [List.length_append, List.length_cons, List.length_nil, Nat.add_sub_cancel,
    getD_append_length, set_append_length]
  rw [hb]

theorem bumpYear_of_ne {year time date : String} (h : date ≠ "01/01") :
    bumpYear year time date = .ok year := by
  unfold bumpYear
  rw [if_neg h]

theorem bumpYear_midnight (year : String) :
    bumpYear year "00:00" "01/01" = .ok (toStringI (atoiM year + 1)) := by
  have ht : tokenizeString ":" "00:00" = ["00", "00"] := by decide
  simp [bumpYear, ht]

theorem yearMarkerUpdate_ne {st : ExtractState} {row : List String}
    (h : row.length ≠ 2) : yearMarkerUpdate st row = st := by
  simp [yearMarkerUpdate, h]

theorem stepOUT_ok {st st' : ExtractState} {idx : Nat} {row : List String}
    (h : stepOUT st idx row = .ok st') :
    18 ≤ row.length ∧
    ∃ y, bumpYear st.eventYear (row.getD 17 "") (row.getD 16 "") = .ok y ∧
      st'.eventYear = y ∧
      st'.serverName = st.serverName ∧
      st'.eventData = st.eventData ++ [stampDate (rawRecord row OUTindices) y] ∧
      st'.denialEvents = st.denialEvents ∧
      st'.startEvents = st.startEvents ∧
      st'.shutdownEvents = st.shutdownEvents ∧
      st'.uniqueProducts = getUniqueItems (row.getD 1 "") st.uniqueProducts ∧
      st'.uniqueUsers = getUniqueItems (row.getD 4 "") st.uniqueUsers ∧
      st'.uniqueHosts = getUniqueItems (row.getD 5 "") st.uniqueHosts ∧
      st'.endTimeRow = st.eventData.length := by
  unfold stepOUT at h
  cases hload : loadEventIntoVector row idx OUTindices with
  | error e => rw [hload] at h; cases h
  | ok r =>
    rw [hload] at h
    dsimp only at h
    obtain ⟨hall, hr⟩ := load_ok_inv hload
    subst hr
    have hlen : 18 ≤ row.length := by
      simp [OUTindices] at hall
      omega
    refine ⟨hlen, ?_⟩
    cases hbump : bumpYear st.eventYear (row.getD 17 "") (row.getD 16 "") with
    | error e =>
      have haz : addYearToDate (registerNames
          { st with eventData := st.eventData ++ [rawRecord row OUTindices] }
          (rawRecord row OUTindices)) = .error e :=
        addYearToDate_append_err rfl hbump
      rw [haz] at h
      cases h
    | ok y =>
      have haz : addYearToDate (registerNames
          { st with eventData := st.eventData ++ [rawRecord row OUTindices] }
          (rawRecord row OUTindices)) =
          .ok { (registerNames
                  { st with eventData := st.eventData ++ [rawRecord row OUTindices] }
                  (rawRecord row OUTindices)) with
                eventYear := y,
                eventData := st.eventData ++ [stampDate (rawRecord row OUTindices) y] } :=
        addYearToDate_append_ok rfl hbump
      rw [haz] at h
      dsimp only at h
      cases h
      refine ⟨y, rfl, rfl, rfl, rfl, rfl, rfl, rfl, rfl, rfl, rfl, ?_⟩
      simp

theorem stepIN_ok {st st' : ExtractState} {idx : Nat} {row : List String}
    (h : stepIN st idx row = .ok st') :
    13 ≤ row.length ∧
    ∃ y, bumpYear st.eventYear (row.getD 12 "") (row.getD 11 "") = .ok y ∧
      st'.eventYear = y ∧
      st'.serverName = st.serverName ∧
      st'.eventData = st.eventData ++ [stampDate (rawRecord row INindices) y] ∧
      st'.denialEvents = st.denialEvents ∧
      st'.startEvents = st.startEvents ∧
      st'.shutdownEvents = st.shutdownEvents ∧
      st'.uniqueProducts = getUniqueItems (row.getD 2 "") st.uniqueProducts ∧
      st'.uniqueUsers = getUniqueItems (row.getD 4 "") st.uniqueUsers ∧
      st'.uniqueHosts = getUniqueItems (row.getD 5 "") st.uniqueHosts ∧
      st'.endTimeRow = st.eventData.length := by
  unfold stepIN at h
  cases hload : loadEventIntoVector row idx INindices with
  | error e => rw [hload] at h; cases h
  | ok r =>
    rw [hload] at h
    dsimp only at h
    obtain ⟨hall, hr⟩ := load_ok_inv hload
    subst hr
    have hlen : 13 ≤ row.length := by
      simp [INindices] at hall
      omega
    refine ⟨hlen, ?_⟩
    cases hbump : bumpYear st.eventYear (row.getD 12 "") (row.getD 11 "") with
    | error e =>
      have haz : addYearToDate (registerNames
          { st with eventData := st.eventData ++ [rawRecord row INindices] }
          (rawRecord row INindices)) = .error e :=
        addYearToDate_append_err rfl hbump
      rw [haz] at h
      cases h
    | ok y =>
      have haz : addYearToDate (registerNames
          { st with eventData := st.eventData ++ [rawRecord row INindices] }
          (rawRecord row INindices)) =
          .ok { (registerNames
                  { st with eventData := st.eventData ++ [rawRecord row INindices] }
                  (rawRecord row INindices)) with
                eventYear := y,
                eventData := st.eventData ++ [stampDate (rawRecord row INindices) y] } :=
        addYearToDate_append_ok rfl hbump
      rw [haz] at h
      dsimp only at h
      cases h
      refine ⟨y, rfl, rfl, rfl, rfl, rfl, rfl, rfl, rfl, rfl, rfl, ?_⟩
      simp

theorem stepDENY_ok {st st' : ExtractState} {idx : Nat} {row : List String}
    (h : stepDENY st idx row = .ok st') :
    12 ≤ row.length ∧
    ∃ y, bumpYear st.eventYear (row.getD 11 "") (row.getD 10 "") = .ok y ∧
      st'.eventYear = y ∧
      st'.serverName = st.serverName ∧
      st'.eventData = st.eventData ++ [stampDate (rawRecord row DENYindices) y] ∧
      st'.denialEvents = st.denialEvents ++ [stampDate (rawRecord row DENYindices) y] ∧
      st'.startEvents = st.startEvents ∧
      st'.shutdownEvents = st.shutdownEvents ∧
      st'.uniqueProducts = getUniqueItems (row.getD 1 "") st.uniqueProducts ∧
      st'.uniqueUsers = getUniqueItems (row.getD 3 "") st.uniqueUsers ∧
      st'.uniqueHosts = getUniqueItems (row.getD 4 "") st.uniqueHosts ∧
      st'.endTimeRow = st.eventData.length := by
  unfold stepDENY at h
  cases hload : loadEventIntoVector row idx DENYindices with
  | error e => rw [hload] at h; cases h
  | ok r =>
    rw [hload] at h
    dsimp only at h
    obtain ⟨hall, hr⟩ := load_ok_inv hload
    subst hr
    have hlen : 12 ≤ row.length := by
      simp [DENYindices] at hall
      omega
    refine ⟨hlen, ?_⟩
    cases hbump : bumpYear st.eventYear (row.getD 11 "") (row.getD 10 "") with
    | error e =>
      have haz : addYearToDate (registerNames
          { st with eventData := st.eventData ++ [rawRecord row DENYindices] }
          (rawRecord row DENYindices)) = .error e :=
        addYearToDate_append_err rfl hbump
      rw [haz] at h
      cases h
    | ok y =>
      have haz : addYearToDate (registerNames
          { st with eventData := st.eventData ++ [rawRecord row DENYindices] }
          (rawRecord row DENYindices)) =
          .ok { (registerNames
                  { st with eventData := st.eventData ++ [rawRecord row DENYindices] }
                  (rawRecord row DENYindices)) with
                eventYear := y,
                eventData := st.eventData ++ [stampDate (rawRecord row DENYindices) y] } :=
        addYearToDate_append_ok rfl hbump
      rw [haz] at h
      dsimp only at h
      cases h
      refine ⟨y, rfl, rfl, rfl, rfl, ?_, rfl, rfl, rfl, rfl, rfl, ?_⟩
      · simp [getD_append_length, registerNames]
      · simp

theorem stepSHUT_ok {st st' : ExtractState} {idx : Nat} {row : List String}
    (h : stepSHUT st idx row = .ok st') :
    5 ≤ row.length ∧
    ∃ y, bumpYear st.eventYear (row.getD 4 "") (row.getD 3 "") = .ok y ∧
      st'.eventYear = y ∧
      st'.serverName = st.serverName ∧
      st'.eventData = st.eventData ++ [stampDate (rawRecord row SHUTindices) y] ∧
      st'.denialEvents = st.denialEvents ∧
      st'.startEvents = st.startEvents ∧
      st'.shutdownEvents = st.shutdownEvents ++ [stampDate (rawRecord row SHUTindices) y] ∧
      st'.uniqueProducts = st.uniqueProducts ∧
      st'.uniqueUsers = st.uniqueUsers ∧
      st'.uniqueHosts = st.uniqueHosts ∧
      st'.endTimeRow = st.eventData.length := by
  unfold stepSHUT at h
  cases hload : loadEventIntoVector row idx SHUTindices with
  | error e => rw [hload] at h; cases h
  | ok r =>
    rw [hload] at h
    dsimp only at h
    obtain ⟨hall, hr⟩ := load_ok_inv hload
    subst hr
    have hlen : 5 ≤ row.length := by
      simp [SHUTindices] at hall
      omega
    refine ⟨hlen, ?_⟩
    cases hbump : bumpYear st.eventYear (row.getD 4 "") (row.getD 3 "") with
    | error e =>
      have haz : addYearToDate
          { st with eventData := st.eventData ++ [rawRecord row SHUTindices] } = .error e :=
        addYearToDate_append_err rfl hbump
      rw [haz] at h
      cases h
    | ok y =>
      have haz : addYearToDate
          { st with eventData := st.eventData ++ [rawRecord row SHUTindices] } =
          .ok { { st with eventData := st.eventData ++ [rawRecord row SHUTindices] } with
                eventYear := y,
                eventData := st.eventData ++ [stampDate (rawRecord row SHUTindices) y] } :=
        addYearToDate_append_ok rfl hbump
      rw [haz] at h
      dsimp only at h
      cases h
      refine ⟨y, rfl, rfl, rfl, rfl, rfl, rfl, ?_, rfl, rfl, rfl, ?_⟩
      · simp [getD_append_length]
      · simp

theorem stepSTART_ok {st st' : ExtractState} {idx : Nat} {row : List String}
    (h : stepSTART st idx row = .ok st') :
    4 ≤ row.length ∧
    ∃ p0 p1 y rest, tokenizeString "/" (row.getD 2 "") = p0 :: p1 :: y :: rest ∧
      st'.eventYear = y ∧
      st'.serverName = row.getD 1 "" ∧
      st'.eventData = st.eventData ++ [rawRecord row STARTindices] ∧
      st'.denialEvents = st.denialEvents ∧
      st'.startEvents = st.startEvents ++ [rawRecord row STARTindices] ∧
      st'.shutdownEvents = st.shutdownEvents ∧
      st'.uniqueProducts = st.uniqueProducts ∧
      st'.uniqueUsers = st.uniqueUsers ∧
      st'.uniqueHosts = st.uniqueHosts ∧
      st'.endTimeRow = st.eventData.length := by
  unfold stepSTART at h
  cases hload : loadEventIntoVector row idx STARTindices with
  | error e => rw [hload] at h; cases h
  | ok r =>
    rw [hload] at h
    dsimp only at h
    obtain ⟨hall, hr⟩ := load_ok_inv hload
    subst hr
    have hlen : 4 ≤ row.length := by
      simp [STARTindices] at hall
      omega
    refine ⟨hlen, ?_⟩
    cases htok : tokenizeString "/" (row.getD 2 "") with
    | nil => rw [htok] at h; cases h
    | cons p0 t0 =>
      cases t0 with
      | nil => rw [htok] at h; cases h
      | cons p1 t1 =>
        cases t1 with
        | nil => rw [htok] at h; cases h
        | cons y rest =>
          rw [htok] at h
          dsimp only at h
          cases h
          refine ⟨p0, p1, y, rest, rfl, rfl, rfl, rfl, rfl, rfl, rfl, rfl, rfl, rfl, ?_⟩
          simp

theorem stepPRODUCT_ok {st st' : ExtractState} {idx : Nat} {row : List String}
    (h : stepPRODUCT st idx row = .ok st') :
    6 ≤ row.length ∧
    st'.eventYear = st.eventYear ∧
    st'.serverName = st.serverName ∧
    st'.eventData = st.eventData ++ [rawRecord row PRODUCTindices] ∧
    st'.denialEvents = st.denialEvents ∧
    st'.startEvents = st.startEvents ∧
    st'.shutdownEvents = st.shutdownEvents ∧
    st'.uniqueProducts = getUniqueItems (row.getD 1 "") st.uniqueProducts ∧
    st'.uniqueUsers = st.uniqueUsers ∧
    st'.uniqueHosts = st.uniqueHosts ∧
    st'.endTimeRow = st.endTimeRow := by
  unfold stepPRODUCT at h
  cases hload : loadEventIntoVector row idx PRODUCTindices with
  | error e => rw [hload] at h; cases h
  | ok r =>
    rw [hload] at h
    dsimp only at h
    obtain ⟨hall, hr⟩ := load_ok_inv hload
    subst hr
    have hlen : 6 ≤ row.length := by
      simp [PRODUCTindices] at hall
      omega
    cases h
    exact ⟨hlen, rfl, rfl, rfl, rfl, rfl, rfl, rfl, rfl, rfl, rfl⟩

theorem yearMarkerUpdate_eventData (st : ExtractState) (row : List String) :
    (yearMarkerUpdate st row).eventData = st.eventData := by
  unfold yearMarkerUpdate
  split
  · split <;> rfl
  · rfl

theorem yearMarkerUpdate_endTimeRow (st : ExtractState) (row : List String) :
    (yearMarkerUpdate st row).endTimeRow = st.endTimeRow := by
  unfold yearMarkerUpdate
  split
  · split <;> rfl
  · rfl

theorem extractStep_kind_OUT {st st' : ExtractState} {idx : Nat} {row : List String}
    (hk : row.getD 0 "" = "OUT") (h : extractStep st idx row = .ok st') :
    stepOUT st idx row = .ok st' := by
  have h0 : 0 < row.length := by
    cases row with
    | nil => exact absurd hk (by decide)
    | cons a t => simp
  simp only [extractStep] at h
  rw [if_pos h0, hk] at h
  simp at h
  by_cases h2 : row.length = 2
  · rcases stepOUT_ok h with ⟨hlen, -⟩
    omega
  · rw [yearMarkerUpdate_ne h2] at h
    exact h

theorem extractStep_kind_IN {st st' : ExtractState} {idx : Nat} {row : List String}
    (hk : row.getD 0 "" = "IN") (h : extractStep st idx row = .ok st') :
    stepIN st idx row = .ok st' := by
  have h0 : 0 < row.length := by
    cases row with
    | nil => exact absurd hk (by decide)
    | cons a t => simp
  simp only [extractStep] at h
  rw [if_pos h0, hk] at h
  simp at h
  by_cases h2 : row.length = 2
  · rcases stepIN_ok h with ⟨hlen, -⟩
    omega
  · rw [yearMarkerUpdate_ne h2] at h
    exact h

theorem extractStep_kind_DENY {st st' : ExtractState} {idx : Nat} {row : List String}
    (hk : row.getD 0 "" = "DENY") (h : extractStep st idx row = .ok st') :
    stepDENY st idx row = .ok st' := by
  have h0 : 0 < row.length := by
    cases row with
    | nil => exact absurd hk (by decide)
    | cons a t => simp
  simp only [extractStep] at h
  rw [if_pos h0, hk] at h
  simp at h
  by_cases h2 : row.length = 2
  · rcases stepDENY_ok h with ⟨hlen, -⟩
    omega
  · rw [yearMarkerUpdate_ne h2] at h
    exact h

theorem extractStep_kind_START {st st' : ExtractState} {idx : Nat} {row : List String}
    (hk : row.getD 0 "" = "START") (h : extractStep st idx row = .ok st') :
    stepSTART st idx row = .ok st' := by
  have h0 : 0 < row.length := by
    cases row with
    | nil => exact absurd hk (by decide)
    | cons a t => simp
  simp only [extractStep] at h
  rw [if_pos h0, hk] at h
  simp at h
  by_cases h2 : row.length = 2
  · rcases stepSTART_ok h with ⟨hlen, -⟩
    omega
  · rw [yearMarkerUpdate_ne h2] at h
    exact h

theorem extractStep_kind_SHUT {st st' : ExtractState} {idx : Nat} {row : List String}
    (hk : row.getD 0 "" = "SHUTDOWN") (h : extractStep st idx row = .ok st') :
    stepSHUT st idx row = .ok st' := by
  have h0 : 0 < row.length := by
    cases row with
    | nil => exact absurd hk (by decide)
    | cons a t => simp
  simp only [extractStep] at h
  rw [if_pos h0, hk] at h
  simp at h
  by_cases h2 : row.length = 2
  · rcases stepSHUT_ok h with ⟨hlen, -⟩
    omega
  · rw [yearMarkerUpdate_ne h2] at h
    exact h

theorem extractStep_kind_PRODUCT {st st' : ExtractState} {idx : Nat} {row : List String}
    (hk : row.getD 0 "" = "PRODUCT") (h : extractStep st idx row = .ok st') :
    stepPRODUCT st idx row = .ok st' := by
  have h0 : 0 < row.length := by
    cases row with
    | nil => exact absurd hk (by decide)
    | cons a t => simp
  simp only [extractStep] at h
  rw [if_pos h0, hk] at h
  simp at h
  by_cases h2 : row.length = 2
  · rcases stepPRODUCT_ok h with ⟨hlen, -⟩
    omega
  · rw [yearMarkerUpdate_ne h2] at h
    exact h

theorem extractStep_kind_other {st st' : ExtractState} {idx : Nat} {row : List String}
    (hOUT : row.getD 0 "" ≠ "OUT") (hIN : row.getD 0 "" ≠ "IN")
    (hDENY : row.getD 0 "" ≠ "DENY") (hSTART : row.getD 0 "" ≠ "START")
    (hSHUT : row.getD 0 "" ≠ "SHUTDOWN") (hPRODUCT : row.getD 0 "" ≠ "PRODUCT")
    (h : extractStep st idx row = .ok st') :
    st' = yearMarkerUpdate st row := by
  by_cases h0 : 0 < row.length
  · simp only [extractStep] at h
    rw [if_pos h0, if_neg hOUT, if_neg hIN, if_neg hDENY, if_neg hSTART,
      if_neg hSHUT, if_neg hPRODUCT] at h
    cases h
    rfl
  · simp only [extractStep] at h
    rw [if_neg h0] at h
    cases h
    rfl

theorem extractStep_shape {st st' : ExtractState} {idx : Nat} {row : List String}
    (h : extractStep st idx row = .ok st') :
    (st'.eventData = st.eventData ∧ st'.endTimeRow = st.endTimeRow) ∨
    (∃ r, st'.eventData = st.eventData ++ [r] ∧ r.getD 0 "" = "PRODUCT" ∧
      st'.endTimeRow = st.endTimeRow) ∨
    (∃ r, st'.eventData = st.eventData ++ [r] ∧ r.getD 0 "" ≠ "PRODUCT" ∧
      st'.endTimeRow = st.eventData.length) := by
  by_cases hOUT : row.getD 0 "" = "OUT"
  · obtain ⟨-, y, -, -, -, hED, -, -, -, -, -, -, hETR⟩ :=
      stepOUT_ok (extractStep_kind_OUT hOUT h)
    refine Or.inr (Or.inr ⟨stampDate (rawRecord row OUTindices) y, hED, ?_, hETR⟩)
    have hkind : (stampDate (rawRecord row OUTindices) y).getD 0 "" = row.getD 0 "" := rfl
    rw [hkind, hOUT]
    decide
  by_cases hIN : row.getD 0 "" = "IN"
  · obtain ⟨-, y, -, -, -, hED, -, -, -, -, -, -, hETR⟩ :=
      stepIN_ok (extractStep_kind_IN hIN h)
    refine Or.inr (Or.inr ⟨stampDate (rawRecord row INindices) y, hED, ?_, hETR⟩)
    have hkind : (stampDate (rawRecord row INindices) y).getD 0 "" = row.getD 0 "" := rfl
    rw [hkind, hIN]
    decide
  by_cases hDENY : row.getD 0 "" = "DENY"
  · obtain ⟨-, y, -, -, -, hED, -, -, -, -, -, -, hETR⟩ :=
      stepDENY_ok (extractStep_kind_DENY hDENY h)
    refine Or.inr (Or.inr ⟨stampDate (rawRecord row DENYindices) y, hED, ?_, hETR⟩)
    have hkind : (stampDate (rawRecord row DENYindices) y).getD 0 "" = row.getD 0 "" := rfl
    rw [hkind, hDENY]
    decide
  by_cases hSTART : row.getD 0 "" = "START"
  · obtain ⟨-, p0, p1, y, rest, -, -, -, hED, -, -, -, -, -, -, hETR⟩ :=
      stepSTART_ok (extractStep_kind_START hSTART h)
    refine Or.inr (Or.inr ⟨rawRecord row STARTindices, hED, ?_, hETR⟩)
    have hkind : (rawRecord row STARTindices).getD 0 "" = row.getD 0 "" := rfl
    rw [hkind, hSTART]
    decide
  by_cases hSHUT : row.getD 0 "" = "SHUTDOWN"
  · obtain ⟨-, y, -, -, -, hED, -, -, -, -, -, -, hETR⟩ :=
      stepSHUT_ok (extractStep_kind_SHUT hSHUT h)
    refine Or.inr (Or.inr ⟨stampDate (rawRecord row SHUTindices) y, hED, ?_, hETR⟩)
    have hkind : (stampDate (rawRecord row SHUTindices) y).getD 0 "" = row.getD 0 "" := rfl
    rw [hkind, hSHUT]
    decide
  by_cases hPRODUCT : row.getD 0 "" = "PRODUCT"
  · obtain ⟨-, -, -, hED, -, -, -, -, -, -, hETR⟩ :=
      stepPRODUCT_ok (extractStep_kind_PRODUCT hPRODUCT h)
    refine Or.inr (Or.inl ⟨rawRecord row PRODUCTindices, hED, ?_, hETR⟩)
    have hkind : (rawRecord row PRODUCTindices).getD 0 "" = row.getD 0 "" := rfl
    rw [hkind, hPRODUCT]
  · have hst := extractStep_kind_other hOUT hIN hDENY hSTART hSHUT hPRODUCT h
    subst hst
    exact Or.inl ⟨yearMarkerUpdate_eventData st row, yearMarkerUpdate_endTimeRow st row⟩

theorem foldlM_except_inv {σ α ε : Type} (f : σ → α → Except ε σ) (P : σ → Prop)
    (hstep : ∀ s a s', f s a = .ok s' → P s → P s')
    (l : List α) : ∀ s s', l.foldlM f s = .ok s' → P s → P s' := by
  induction l with
  | nil =>
    intro s s' h hp
    cases h
    exact hp
  | cons a t ih =>
    intro s s' h hp
    simp only [List.foldlM] at h
    cases hfa : f s a with
    | error e =>
      rw [hfa] at h
      cases h
    | ok s1 =>
      rw [hfa] at h
      exact ih s1 s' h (hstep s a s1 hfa hp)

/-- Does the string end in a slash followed by four decimal digits, i.e.
does it carry a stamped 4-digit year suffix. -/
def hasFourDigitYearSuffix (s : String) : Bool :=
  match s.data.reverse with
  | d1 :: d2 :: d3 :: d4 :: c :: _ =>
    d1.isDigit && d2.isDigit && d3.isDigit && d4.isDigit && (c == '/')
  | _ => false

/-- Claim C5: when the ambient year string reads Y and an OUT, IN, DENY or
SHUTDOWN row whose raw date field is 01/01 and raw time field is 00:00 is
extracted, the new record is stamped with year Y + 1 and the ambient year
for all subsequent records becomes Y + 1. -/
theorem yearRollover_stamps_next_year
    {st st' : ExtractState} {idx : Nat} {row : List String} {s : String} {Y : Int}
    (hys : st.eventYear = s) (hY : atoiM s = Y)
    (hkind :
      (row.getD 0 "" = "OUT" ∧ row.getD 16 "" = "01/01" ∧ row.getD 17 "" = "00:00") ∨
      (row.getD 0 "" = "IN" ∧ row.getD 11 "" = "01/01" ∧ row.getD 12 "" = "00:00") ∨
      (row.getD 0 "" = "DENY" ∧ row.getD 10 "" = "01/01" ∧ row.getD 11 "" = "00:00") ∨
      (row.getD 0 "" = "SHUTDOWN" ∧ row.getD 3 "" = "01/01" ∧ row.getD 4 "" = "00:00"))
    (h : extractStep st idx row = .ok st') :
    st'.eventYear = toStringI (Y + 1) ∧
    st'.eventData.length = st.eventData.length + 1 ∧
    (st'.eventData.getD st.eventData.length []).getD 1 "" =
      "01/01" ++ "/" ++ toStringI (Y + 1) := by
  rcases hkind with ⟨hk, hd, ht⟩ | ⟨hk, hd, ht⟩ | ⟨hk, hd, ht⟩ | ⟨hk, hd, ht⟩
  · obtain ⟨-, y, hb, he, -, hED, -, -, -, -, -, -, -⟩ :=
      stepOUT_ok (extractStep_kind_OUT hk h)
    rw [hd, ht, hys, bumpYear_midnight, hY] at hb
    cases hb
    have hdate : (stampDate (rawRecord row OUTindices) (toStringI (Y + 1))).getD 1 "" =
        row.getD 16 "" ++ "/" ++ toStringI (Y + 1) := rfl
    refine ⟨he, by simp [hED], ?_⟩
    rw [hED, getD_append_length, hdate, hd]
  · obtain ⟨-, y, hb, he, -, hED, -, -, -, -, -, -, -⟩ :=
      stepIN_ok (extractStep_kind_IN hk h)
    rw [hd, ht, hys, bumpYear_midnight, hY] at hb
    cases hb
    have hdate : (stampDate (rawRecord row INindices) (toStringI (Y + 1))).getD 1 "" =
        row.getD 11 "" ++ "/" ++ toStringI (Y + 1) := rfl
    refine ⟨he, by simp [hED], ?_⟩
    rw [hED, getD_append_length, hdate, hd]
  · obtain ⟨-, y, hb, he, -, hED, -, -, -, -, -, -, -⟩ :=
      stepDENY_ok (extractStep_kind_DENY hk h)
    rw [hd, ht, hys, bumpYear_midnight, hY] at hb
    cases hb
    have hdate : (stampDate (rawRecord row DENYindices) (toStringI (Y + 1))).getD 1 "" =
        row.getD 10 "" ++ "/" ++ toStringI (Y + 1) := rfl
    refine ⟨he, by simp [hED], ?_⟩
    rw [hED, getD_append_length, hdate, hd]
  · obtain ⟨-, y, hb, he, -, hED, -, -, -, -, -, -, -⟩ :=
      stepSHUT_ok (extractStep_kind_SHUT hk h)
    rw [hd, ht, hys, bumpYear_midnight, hY] at hb
    cases hb
    have hdate : (stampDate (rawRecord row SHUTindices) (toStringI (Y + 1))).getD 1 "" =
        row.getD 3 "" ++ "/" ++ toStringI (Y + 1) := rfl
    refine ⟨he, by simp [hED], ?_⟩
    rw [hED, getD_append_length, hdate, hd]

/-- State of the extractor before the concrete rollover step used as the
witness for claim C5. -/
def rolloverStartState : ExtractState :=
  { initExtractState with eventYear := "2015" }

/-- The concrete SHUTDOWN row used as the witness for claim C5. -/
def rolloverRow : List String := ["SHUTDOWN", "x", "x", "01/01", "00:00"]

/-- State of the extractor after the concrete rollover step used as the
witness for claim C5. -/
def rolloverEndState : ExtractState :=
  { initExtractState with
    eventYear := "2016",
    eventData := [["SHUTDOWN", "01/01/2016", "00:00"]],
    shutdownEvents := [["SHUTDOWN", "01/01/2016", "00:00"]] }

/-- Witness for claim C5 at a concrete input: a SHUTDOWN row dated 01/01
00:00 extracted while the ambient year is 2015 is stamped 01/01/2016 and
the ambient year becomes 2016. -/
theorem yearRollover_stamps_next_year_witness :
    rolloverStartState.eventYear = "2015" ∧
    atoiM "2015" = (2015 : Int) ∧
    extractStep rolloverStartState 0 rolloverRow = .ok rolloverEndState ∧
    (rolloverEndState.eventYear = toStringI ((2015 : Int) + 1) ∧
      rolloverEndState.eventData.length = rolloverStartState.eventData.length + 1 ∧
      (rolloverEndState.eventData.getD rolloverStartState.eventData.length []).getD 1 "" =
        "01/01" ++ "/" ++ toStringI ((2015 : Int) + 1)) :=
  ⟨rfl, by decide, rfl,
    @yearRollover_stamps_next_year rolloverStartState rolloverEndState 0 rolloverRow
      "2015" 2015 rfl (by decide)
      (Or.inr (Or.inr (Or.inr ⟨rfl, rfl, rfl⟩))) rfl⟩

/-- Claim C9 (amended): an extraction step never alters the records already
emitted (so no date is stamped twice), appends at most one record, and a
newly appended record of kind OUT, IN, DENY or SHUTDOWN carries as its date
the raw date column of that kind's schema with a slash and the ambient year
appended exactly once, while appended START and PRODUCT records keep their
raw field at the date position unchanged, with no year appended. -/
theorem extractStep_stamps_exactly_once
    {st st' : ExtractState} {idx : Nat} {row : List String}
    (h : extractStep st idx row = .ok st') :
    st'.eventData.take st.eventData.length = st.eventData ∧
    (st'.eventData = st.eventData ∨
      ∃ r, st'.eventData = st.eventData ++ [r] ∧
        ((r.getD 0 "" = "OUT" ∧ r.getD 1 "" = row.getD 16 "" ++ "/" ++ st'.eventYear) ∨
         (r.getD 0 "" = "IN" ∧ r.getD 1 "" = row.getD 11 "" ++ "/" ++ st'.eventYear) ∨
         (r.getD 0 "" = "DENY" ∧ r.getD 1 "" = row.getD 10 "" ++ "/" ++ st'.eventYear) ∨
         (r.getD 0 "" = "SHUTDOWN" ∧ r.getD 1 "" = row.getD 3 "" ++ "/" ++ st'.eventYear) ∨
         (r.getD 0 "" = "START" ∧ r.getD 1 "" = row.getD 2 "") ∨
         (r.getD 0 "" = "PRODUCT" ∧ r.getD 1 "" = row.getD 1 ""))) := by
  by_cases hOUT : row.getD 0 "" = "OUT"
  · obtain ⟨-, y, hb, he, -, hED, -, -, -, -, -, -, -⟩ :=
      stepOUT_ok (extractStep_kind_OUT hOUT h)
    refine ⟨by rw [hED]; exact List.take_left _ _, Or.inr
      ⟨stampDate (rawRecord row OUTindices) y, hED, Or.inl ⟨hOUT, ?_⟩⟩⟩
    rw [he]
    rfl
  by_cases hIN : row.getD 0 "" = "IN"
  · obtain ⟨-, y, hb, he, -, hED, -, -, -, -, -, -, -⟩ :=
      stepIN_ok (extractStep_kind_IN hIN h)
    refine ⟨by rw [hED]; exact List.take_left _ _, Or.inr
      ⟨stampDate (rawRecord row INindices) y, hED, Or.inr (Or.inl ⟨hIN, ?_⟩)⟩⟩
    rw [he]
    rfl
  by_cases hDENY : row.getD 0 "" = "DENY"
  · obtain ⟨-, y, hb, he, -, hED, -, -, -, -, -, -, -⟩ :=
      stepDENY_ok (extractStep_kind_DENY hDENY h)
    refine ⟨by rw [hED]; exact List.take_left _ _, Or.inr
      ⟨stampDate (rawRecord row DENYindices) y, hED,
        Or.inr (Or.inr (Or.inl ⟨hDENY, ?_⟩))⟩⟩
    rw [he]
    rfl
  by_cases hSTART : row.getD 0 "" = "START"
  · obtain ⟨-, p0, p1, y, rest, -, -, -, hED, -, -, -, -, -, -, -⟩ :=
      stepSTART_ok (extractStep_kind_START hSTART h)
    exact ⟨by rw [hED]; exact List.take_left _ _, Or.inr
      ⟨rawRecord row STARTindices, hED,
        Or.inr (Or.inr (Or.inr (Or.inr (Or.inl ⟨hSTART, rfl⟩))))⟩⟩
  by_cases hSHUT : row.getD 0 "" = "SHUTDOWN"
  · obtain ⟨-, y, hb, he, -, hED, -, -, -, -, -, -, -⟩ :=
      stepSHUT_ok (extractStep_kind_SHUT hSHUT h)
    refine ⟨by rw [hED]; exact List.take_left _ _, Or.inr
      ⟨stampDate (rawRecord row SHUTindices) y, hED,
        Or.inr (Or.inr (Or.inr (Or.inl ⟨hSHUT, ?_⟩)))⟩⟩
    rw [he]
    rfl
  by_cases hPRODUCT : row.getD 0 "" = "PRODUCT"
  · obtain ⟨-, -, -, hED, -, -, -, -, -, -, -⟩ :=
      stepPRODUCT_ok (extractStep_kind_PRODUCT hPRODUCT h)
    exact ⟨by rw [hED]; exact List.take_left _ _, Or.inr
      ⟨rawRecord row PRODUCTindices, hED,
        Or.inr (Or.inr (Or.inr (Or.inr (Or.inr ⟨hPRODUCT, rfl⟩))))⟩⟩
  · have hst := extractStep_kind_other hOUT hIN hDENY hSTART hSHUT hPRODUCT h
    subst hst
    rw [yearMarkerUpdate_eventData]
    exact ⟨List.take_length _, Or.inl rfl⟩

/-- The concrete PRODUCT row used as the witness for the amended claim C9. -/
def productRow : List String := ["PRODUCT", "Imaris", "v9", "x", "10", "2"]

/-- State of the extractor after the concrete PRODUCT step used as the
witness for the amended claim C9. -/
def productStepState : ExtractState :=
  { initExtractState with
    eventData := [["PRODUCT", "Imaris", "v9", "10", "2"]],
    uniqueProducts := ["Imaris"] }

/-- Witness for the amended claim C9 at a concrete input: extracting a
PRODUCT row appends one record whose field at the date position is the raw
product name, with no year appended. -/
theorem extractStep_stamps_exactly_once_witness :
    extractStep initExtractState 0 productRow = .ok productStepState ∧
    (productStepState.eventData.take initExtractState.eventData.length =
        initExtractState.eventData ∧
      (productStepState.eventData = initExtractState.eventData ∨
        ∃ r, productStepState.eventData = initExtractState.eventData ++ [r] ∧
          ((r.getD 0 "" = "OUT" ∧ r.getD 1 "" =
              productRow.getD 16 "" ++ "/" ++ productStepState.eventYear) ∨
           (r.getD 0 "" = "IN" ∧ r.getD 1 "" =
              productRow.getD 11 "" ++ "/" ++ productStepState.eventYear) ∨
           (r.getD 0 "" = "DENY" ∧ r.getD 1 "" =
              productRow.getD 10 "" ++ "/" ++ productStepState.eventYear) ∨
           (r.getD 0 "" = "SHUTDOWN" ∧ r.getD 1 "" =
              productRow.getD 3 "" ++ "/" ++ productStepState.eventYear) ∨
           (r.getD 0 "" = "START" ∧ r.getD 1 "" = productRow.getD 2 "") ∨
           (r.getD 0 "" = "PRODUCT" ∧ r.getD 1 "" = productRow.getD 1 "")))) :=
  ⟨rfl, @extractStep_stamps_exactly_once initExtractState productStepState 0 productRow rfl⟩

/-- Claim C9 (counterexample to the claim as stated): a well-formed input
holding a START line and a PRODUCT line produces an event record (the
PRODUCT one) whose date-position field is the bare product name: no 4-digit
year suffix is ever appended to it. -/
theorem productRecord_has_no_year_suffix :
    extractEvents
        [["START", "srv", "05/30/2015", "10:00"],
         ["PRODUCT", "Imaris", "v9", "x", "10", "2"]] =
      .ok { initExtractState with
            eventYear := "2015",
            serverName := "srv",
            eventData := [["START", "05/30/2015", "10:00", "srv"],
                          ["PRODUCT", "Imaris", "v9", "10", "2"]],
            startEvents := [["START", "05/30/2015", "10:00", "srv"]],
            uniqueProducts := ["Imaris"],
            endTimeRow := 0 } ∧
    (([["START", "05/30/2015", "10:00", "srv"],
       ["PRODUCT", "Imaris", "v9", "10", "2"]] : List (List String)).getD 1 []).getD 0 "" =
      "PRODUCT" ∧
    hasFourDigitYearSuffix
      ((([["START", "05/30/2015", "10:00", "srv"],
          ["PRODUCT", "Imaris", "v9", "10", "2"]] : List (List String)).getD 1 []).getD 1 "") =
      false := by
  refine ⟨rfl, rfl, ?_⟩
  decide

/-- Predicate satisfied by exactly the events at which the inner scan of
getUsageDurationHost and getUsageDurationUser breaks: an IN event whose
handle equals the OUT's handle, or any SHUTDOWN event. -/
def isClose (handle : String) (ev : List String) : Bool :=
  (ev.getD 0 "" == "IN" && ev.getD 8 "" == handle) || (ev.getD 0 "" == "SHUTDOWN")

/-- Index of the first element of the list satisfying the predicate. -/
def findFirstIdx (p : α → Bool) : List α → Option Nat
  | [] => none
  | a :: t => if p a then some 0 else (findFirstIdx p t).map (fun n => n + 1)

/-- The inner scan of the duration pass: the first index strictly after row
whose event closes the checkout, if any. -/
def findClose (events : List (List String)) (handle : String) (row : Nat) :
    Option Nat :=
  (findFirstIdx (isClose handle) (events.drop (row + 1))).map (fun k => row + 1 + k)

/-- One data row of the duration table, with the checkin column kept typed:
none renders as the (Still checked out) sentinel, and the duration is the
difference of the parsed timestamps that the C++ takes with boost ptime
subtraction. -/
structure DurationRecord where
  checkOut : String
  checkIn : Option String
  product : String
  version : String
  user : String
  host : String
  duration : Int
deriving DecidableEq, Repr

/-- The Duration Record emitted for the OUT event at index row, abstracted
over the timestamp parser (stringToBoostTime lives in Utilities, absent
from src): scan strictly-later events for the close; if none exists use
the event at endTimeRow as the close and mark the record still checked
out. -/
def mkDurationRecord (parse : String → String → Int)
    (events : List (List String)) (endTimeRow : Nat) (row : Nat) :
    DurationRecord :=
  let ev := events.getD row []
  match findClose events (ev.getD 8 "") row with
  | some j =>
    let cev := events.getD j []
    { checkOut := ev.getD 1 "" ++ " " ++ ev.getD 2 "",
      checkIn := some (cev.getD 1 "" ++ " " ++ cev.getD 2 ""),
      product := ev.getD 3 "", version := ev.getD 4 "",
      user := ev.getD 5 "", host := ev.getD 6 "",
      duration := parse (cev.getD 1 "") (cev.getD 2 "") -
        parse (ev.getD 1 "") (ev.getD 2 "") }
  | none =>
    let eev := events.getD endTimeRow []
    { checkOut := ev.getD 1 "" ++ " " ++ ev.getD 2 "",
      checkIn := none,
      product := ev.getD 3 "", version := ev.getD 4 "",
      user := ev.getD 5 "", host := ev.getD 6 "",
      duration := parse (eev.getD 1 "") (eev.getD 2 "") -
        parse (ev.getD 1 "") (ev.getD 2 "") }

/-- The data rows of the duration table: one record per OUT event, in event
order.  getUsageDurationHost and getUsageDurationUser both perform exactly
this construction; they differ only in the totals matrix they accumulate
into. -/
def usageDurationRecords (parse : String → String → Int)
    (events : List (List String)) (endTimeRow : Nat) : List DurationRecord :=
  (List.range events.length).filterMap (fun row =>
    if (events.getD row []).getD 0 "" = "OUT" then
      some (mkDurationRecord parse events endTimeRow row)
    else none)

/-- LogData::getUsageDurationHost, restricted to its emitted record rows. -/
def getUsageDurationHost (parse : String → String → Int)
    (events : List (List String)) (endTimeRow : Nat) : List DurationRecord :=
  usageDurationRecords parse events endTimeRow

/-- LogData::getUsageDurationUser, restricted to its emitted record rows. -/
def getUsageDurationUser (parse : String → String → Int)
    (events : List (List String)) (endTimeRow : Nat) : List DurationRecord :=
  usageDurationRecords parse events endTimeRow

theorem getD_drop (l : List α) (n k : Nat) (d : α) :
    (l.drop n).getD k d = l.getD (n + k) d := by
  simp [List.getD_eq_getElem?_getD, List.getElem?_drop]

theorem getD_append_left (l l' : List α) (i : Nat) (d : α) (h : i < l.length) :
    (l ++ l').getD i d = l.getD i d := by
  simp [List.getD_eq_getElem?_getD, List.getElem?_append_left h]

theorem findFirstIdx_eq_some {p : α → Bool} (d : α) :
    ∀ (l : List α) (j : Nat), j < l.length → p (l.getD j d) = true →
    (∀ k, k < j → p (l.getD k d) = false) → findFirstIdx p l = some j := by
  intro l
  induction l with
  | nil => intro j hj; simp at hj
  | cons a t ih =>
    intro j hj hpj hlt
    cases j with
    | zero =>
      simp only [List.getD_cons_zero] at hpj
      unfold findFirstIdx
      rw [if_pos hpj]
    | succ m =>
      have ha : p a = false := by
        have := hlt 0 (Nat.succ_pos m)
        simpa using this
      simp only [List.getD_cons_succ] at hpj
      unfold findFirstIdx
      rw [if_neg (by rw [ha]; exact Bool.false_ne_true)]
      have hrec : findFirstIdx p t = some m :=
        ih m (by simpa using hj) hpj
          (fun k hk => by
            have := hlt (k + 1) (by omega)
            simpa using this)
      rw [hrec]
      rfl

theorem findFirstIdx_eq_none {p : α → Bool} (d : α) :
    ∀ (l : List α), (∀ k, k < l.length → p (l.getD k d) = false) →
    findFirstIdx p l = none := by
  intro l
  induction l with
  | nil => intro hk; rfl
  | cons a t ih =>
    intro hk
    have ha : p a = false := by
      have := hk 0 (Nat.succ_pos _)
      simpa using this
    unfold findFirstIdx
    rw [if_neg (by rw [ha]; exact Bool.false_ne_true)]
    rw [ih (fun k hkk => by
      have := hk (k + 1) (by simpa using Nat.succ_lt_succ hkk)
      simpa using this)]
    rfl

theorem findClose_eq_some {events : List (List String)} {handle : String}
    {row j : Nat} (hj : row < j) (hjlen : j < events.length)
    (hclose : isClose handle (events.getD j []) = true)
    (hfirst : ∀ k, row < k → k < j → isClose handle (events.getD k []) = false) :
    findClose events handle row = some j := by
  unfold findClose
  have hidx : findFirstIdx (isClose handle) (events.drop (row + 1)) =
      some (j - (row + 1)) := by
    apply findFirstIdx_eq_some ([] : List String)
    · rw [List.length_drop]
      omega
    · rw [getD_drop]
      have harith : row + 1 + (j - (row + 1)) = j := by omega
      rw [harith]
      exact hclose
    · intro k hk
      rw [getD_drop]
      exact hfirst (row + 1 + k) (by omega) (by omega)
  rw [hidx]
  have harith : row + 1 + (j - (row + 1)) = j := by omega
  simp [harith]

theorem findClose_eq_none {events : List (List String)} {handle : String}
    {row : Nat}
    (h : ∀ k, row < k → k < events.length → isClose handle (events.getD k []) = false) :
    findClose events handle row = none := by
  unfold findClose
  rw [findFirstIdx_eq_none ([] : List String) _ (fun k hk => by
    rw [getD_drop]
    rw [List.length_drop] at hk
    exact h (row + 1 + k) (by omega) (by omega))]
  rfl

/-- Claim C3: for an OUT event, the close is the first strictly-later event
that is an IN with the same handle or a SHUTDOWN, and when it exists the
emitted Duration Record's checkin timestamp is that event's date and time
and its duration is the close's parsed timestamp minus the checkout's,
exactly. -/
theorem durationRecord_close_is_first (parse : String → String → Int)
    (events : List (List String)) (endTimeRow row j : Nat)
    (hout : (events.getD row []).getD 0 "" = "OUT")
    (hj : row < j) (hjlen : j < events.length)
    (hclose : isClose ((events.getD row []).getD 8 "") (events.getD j []) = true)
    (hfirst : ∀ k, row < k → k < j →
      isClose ((events.getD row []).getD 8 "") (events.getD k []) = false) :
    findClose events ((events.getD row []).getD 8 "") row = some j ∧
    (mkDurationRecord parse events endTimeRow row).checkIn =
      some ((events.getD j []).getD 1 "" ++ " " ++ (events.getD j []).getD 2 "") ∧
    (mkDurationRecord parse events endTimeRow row).duration =
      parse ((events.getD j []).getD 1 "") ((events.getD j []).getD 2 "") -
      parse ((events.getD row []).getD 1 "") ((events.getD row []).getD 2 "") := by
  have hfc := findClose_eq_some hj hjlen hclose hfirst
  refine ⟨hfc, ?_, ?_⟩ <;>
    simp only [mkDurationRecord] <;>
    rw [hfc]

/-- The OUT row of the concrete two-event duration scenario. -/
def outRowW : List String := ["OUT", "10", "20", "p", "v", "u", "h", "1", "7", "0"]

/-- The IN row (same handle 7) of the concrete two-event duration
scenario. -/
def inRowW : List String := ["IN", "11", "21", "p", "v", "u", "h", "0", "7", "0"]

/-- A concrete timestamp parser for the witnesses. -/
def parseW : String → String → Int :=
  fun d t => atoiM d * 100 + atoiM t

/-- Witness for claim C3 at a concrete input: the OUT at index 0 is closed
by the matching IN at index 1, the checkin column carries the IN's
timestamp and the duration is the parsed difference. -/
theorem durationRecord_close_is_first_witness :
    ([outRowW, inRowW].getD 0 []).getD 0 "" = "OUT" ∧
    isClose (([outRowW, inRowW].getD 0 []).getD 8 "") ([outRowW, inRowW].getD 1 []) = true ∧
    (findClose [outRowW, inRowW] (([outRowW, inRowW].getD 0 []).getD 8 "") 0 = some 1 ∧
      (mkDurationRecord parseW [outRowW, inRowW] 1 0).checkIn =
        some (([outRowW, inRowW].getD 1 []).getD 1 "" ++ " " ++
          ([outRowW, inRowW].getD 1 []).getD 2 "") ∧
      (mkDurationRecord parseW [outRowW, inRowW] 1 0).duration =
        parseW (([outRowW, inRowW].getD 1 []).getD 1 "")
            (([outRowW, inRowW].getD 1 []).getD 2 "") -
          parseW (([outRowW, inRowW].getD 0 []).getD 1 "")
            (([outRowW, inRowW].getD 0 []).getD 2 "")) :=
  ⟨by decide, by decide,
    durationRecord_close_is_first parseW [outRowW, inRowW] 1 0 1 (by decide)
      (by decide) (by decide) (by decide)
      (fun k hk1 hk2 => absurd hk1 (by omega))⟩

/-- The event kind stored at index i of the event table. -/
def kindAt (l : List (List String)) (i : Nat) : String :=
  (l.getD i []).getD 0 ""

/-- The invariant extractEvents maintains for endTimeRow: as soon as some
event carries a timestamp (every kind except PRODUCT does), endTimeRow
points at the last such event. -/
def EndTimeInv (st : ExtractState) : Prop :=
  ∀ i, i < st.eventData.length → kindAt st.eventData i ≠ "PRODUCT" →
    (i ≤ st.endTimeRow ∧ st.endTimeRow < st.eventData.length ∧
      kindAt st.eventData st.endTimeRow ≠ "PRODUCT")

theorem endTimeInv_init : EndTimeInv initExtractState := by
  intro i hi
  simp [initExtractState] at hi

theorem endTimeInv_step {st st' : ExtractState} {idx : Nat} {row : List String}
    (h : extractStep st idx row = .ok st') (hinv : EndTimeInv st) :
    EndTimeInv st' := by
  rcases extractStep_shape h with ⟨hED, hETR⟩ | ⟨r, hED, hk, hETR⟩ | ⟨r, hED, hk, hETR⟩
  · intro i hi hip
    rw [hED] at hi hip
    rw [hED, hETR]
    exact hinv i hi hip
  · intro i hi hip
    rw [hED] at hi hip
    rw [hED, hETR]
    have hlen : i < st.eventData.length + 1 := by
      simpa using hi
    have hil : i < st.eventData.length := by
      rcases Nat.lt_or_ge i st.eventData.length with hlt | hge
      · exact hlt
      · exfalso
        have hieq : i = st.eventData.length := by omega
        subst hieq
        have hkind : kindAt (st.eventData ++ [r]) st.eventData.length = r.getD 0 "" := by
          unfold kindAt
          rw [getD_append_length]
        rw [hkind, hk] at hip
        exact hip rfl
    have hku : kindAt (st.eventData ++ [r]) i = kindAt st.eventData i := by
      unfold kindAt
      rw [getD_append_left _ _ _ _ hil]
    rw [hku] at hip
    obtain ⟨h1, h2, h3⟩ := hinv i hil hip
    refine ⟨h1, by simp; omega, ?_⟩
    have hke : kindAt (st.eventData ++ [r]) st.endTimeRow = kindAt st.eventData st.endTimeRow := by
      unfold kindAt
      rw [getD_append_left _ _ _ _ h2]
    rw [hke]
    exact h3
  · intro i hi hip
    rw [hED] at hi
    rw [hED, hETR]
    have hlast : kindAt (st.eventData ++ [r]) st.eventData.length = r.getD 0 "" := by
      unfold kindAt
      rw [getD_append_length]
    have hlen : i < st.eventData.length + 1 := by
      simpa using hi
    exact ⟨by omega, by simp, by rw [hlast]; exact hk⟩

theorem extractEvents_endTimeInv {allData : List (List String)} {st : ExtractState}
    (h : extractEvents allData = .ok st) : EndTimeInv st := by
  unfold extractEvents at h
  exact foldlM_except_inv _ EndTimeInv (fun _ a _ hs hp => endTimeInv_step hs hp)
    allData.enum initExtractState st h endTimeInv_init

/-- Claim C4: an OUT event with no strictly-later close before the end of
the record sequence yields a still-checked-out Duration Record whose
duration is computed against the timestamp of the event at endTimeRow, and
endTimeRow is the index of the last event of a timestamped kind (every
kind except PRODUCT carries a date and time). -/
theorem durationRecord_fallback_uses_endTimeRow (parse : String → String → Int)
    (allData : List (List String)) (st : ExtractState) (row : Nat)
    (h : extractEvents allData = .ok st)
    (hout : (st.eventData.getD row []).getD 0 "" = "OUT")
    (hrow : row < st.eventData.length)
    (hnoclose : ∀ k, row < k → k < st.eventData.length →
      isClose ((st.eventData.getD row []).getD 8 "") (st.eventData.getD k []) = false) :
    (mkDurationRecord parse st.eventData st.endTimeRow row).checkIn = none ∧
    (mkDurationRecord parse st.eventData st.endTimeRow row).duration =
      parse ((st.eventData.getD st.endTimeRow []).getD 1 "")
          ((st.eventData.getD st.endTimeRow []).getD 2 "") -
        parse ((st.eventData.getD row []).getD 1 "")
          ((st.eventData.getD row []).getD 2 "") ∧
    (st.eventData.getD st.endTimeRow []).getD 0 "" ≠ "PRODUCT" ∧
    (∀ i, st.endTimeRow < i → i < st.eventData.length →
      (st.eventData.getD i []).getD 0 "" = "PRODUCT") := by
  have hfc := findClose_eq_none hnoclose
  have hinv := extractEvents_endTimeInv h
  have hrowkind : kindAt st.eventData row ≠ "PRODUCT" := by
    unfold kindAt
    rw [hout]
    decide
  obtain ⟨hle, hlt, hker⟩ := hinv row hrow hrowkind
  refine ⟨?_, ?_, hker, ?_⟩
  · simp only [mkDurationRecord]
    rw [hfc]
  · simp only [mkDurationRecord]
    rw [hfc]
  · intro i hgt hilen
    by_contra hne
    obtain ⟨hibound, -, -⟩ := hinv i hilen hne
    omega

/-- The tokenized rows of the concrete two-row log used as the witness for
claim C4: a START line followed by a single OUT with no later close. -/
def fallbackLog : List (List String) :=
  [["START", "srv", "05/30/2015", "10:00"],
   ["OUT", "prod", "v1", "x", "user", "host", "x", "x", "1", "0", "7",
    "x", "x", "x", "x", "x", "05/30", "10:01"]]

/-- The extraction result of fallbackLog. -/
def fallbackState : ExtractState :=
  { eventYear := "2015", serverName := "srv",
    eventData := [["START", "05/30/2015", "10:00", "srv"],
                  ["OUT", "05/30/2015", "10:01", "prod", "v1", "user", "host",
                   "1", "7", "0"]],
    denialEvents := [],
    startEvents := [["START", "05/30/2015", "10:00", "srv"]],
    shutdownEvents := [],
    uniqueProducts := ["prod"], uniqueUsers := ["user"], uniqueHosts := ["host"],
    endTimeRow := 1 }

/-- Witness for claim C4 at a concrete input: the unmatched OUT at index 1
is rendered still checked out and its duration is computed against the
event at endTimeRow, which is the last timestamped event. -/
theorem durationRecord_fallback_uses_endTimeRow_witness :
    extractEvents fallbackLog = .ok fallbackState ∧
    (fallbackState.eventData.getD 1 []).getD 0 "" = "OUT" ∧
    1 < fallbackState.eventData.length ∧
    ((mkDurationRecord parseW fallbackState.eventData fallbackState.endTimeRow 1).checkIn =
        none ∧
      (mkDurationRecord parseW fallbackState.eventData fallbackState.endTimeRow 1).duration =
        parseW ((fallbackState.eventData.getD fallbackState.endTimeRow []).getD 1 "")
            ((fallbackState.eventData.getD fallbackState.endTimeRow []).getD 2 "") -
          parseW ((fallbackState.eventData.getD 1 []).getD 1 "")
            ((fallbackState.eventData.getD 1 []).getD 2 "") ∧
      (fallbackState.eventData.getD fallbackState.endTimeRow []).getD 0 "" ≠ "PRODUCT" ∧
      (∀ i, fallbackState.endTimeRow < i → i < fallbackState.eventData.length →
        (fallbackState.eventData.getD i []).getD 0 "" = "PRODUCT")) :=
  ⟨by rfl, by decide, by decide,
    durationRecord_fallback_uses_endTimeRow parseW fallbackLog fallbackState 1
      (by rfl) (by decide) (by decide)
      (by
        intro k hk1 hk2
        exfalso
        have h2 : fallbackState.eventData.length = 2 := rfl
        rw [h2] at hk2
        omega)⟩

/-- LogData::getIndex: the first position of the name in the registry, or
the InvalidIndexException (modelled as the error case) when absent. -/
def getIndex (name : String) : List String → Except Unit Nat
  | [] => .error ()
  | a :: rest =>
    if a = name then .ok 0
    else (getIndex name rest).map (fun n => n + 1)

/-- The local state of LogData::getConcurrentUsage during its replay of the
event table.  The counters the C++ keeps as size_t are carried as Int with
the source's guarded updates. -/
structure ConcState where
  reservedCount : List String
  licenseCounts : List String
  uniqueCounts : List Int
  userProductCounts : List (List Int)
  maxCounts : List String
  maxReservedCounts : List String
  licenseCountNumbers : List Int
  usage : List (List String)
deriving DecidableEq, Repr

/-- The per-product block of the CSV header row built at the top of
getConcurrentUsage. -/
def concHeader (products : List String) : List String :=
  "Date/Time" :: products.flatMap (fun p =>
    [p ++ " Floating Licenses in use", p ++ " Total Licenses in use",
     p ++ " Floating Licenses Limit", p ++ " Reserved Licenses in use",
     p ++ " Reserved Licenses Limit"])

/-- The initial accumulator state of getConcurrentUsage: every per-product
vector starts as zeros (string vectors as "0"), the user-product matrix is
all zeros, and the usage table holds the header row. -/
def initConcState (products users : List String) : ConcState :=
  { reservedCount := List.replicate products.length "0",
    licenseCounts := List.replicate products.length "0",
    uniqueCounts := List.replicate products.length 0,
    userProductCounts :=
      List.replicate users.length (List.replicate products.length 0),
    maxCounts := List.replicate products.length "0",
    maxReservedCounts := List.replicate products.length "0",
    licenseCountNumbers := List.replicate products.length 0,
    usage := [concHeader products] }

/-- The snapshot row LogData::gatherConcurrentUsageData builds: the event's
date and time followed, per product, by total-in-use, unique count,
configured limit, reserved-in-use and reserved limit. -/
def snapshotRow (ev : List String) (st : ConcState) : List String :=
  (ev.getD 1 "" ++ " " ++ ev.getD 2 "") ::
    (List.range st.licenseCounts.length).flatMap (fun p =>
      [st.licenseCounts.getD p "", toStringI (st.uniqueCounts.getD p 0),
       st.maxCounts.getD p "", st.reservedCount.getD p "",
       st.maxReservedCounts.getD p ""])

/-- LogData::gatherConcurrentUsageData: append one snapshot row to the
usage table. -/
def gatherConcurrentUsageData (ev : List String) (st : ConcState) : ConcState :=
  { st with usage := st.usage ++ [snapshotRow ev st] }

/-- One iteration of the getConcurrentUsage replay loop over an event
record, for the ReportLog format. -/
def concStep (products users : List String) (st : ConcState)
    (ev : List String) : Except Unit ConcState :=
  if ev.getD 0 "" = "OUT" then do
    let p ← getIndex (ev.getD 3 "") products
    let u ← getIndex (ev.getD 5 "") users
    let st1 := { st with licenseCounts := st.licenseCounts.set p (ev.getD 7 "") }
    let rowU := st1.userProductCounts.getD u []
    let newCount := rowU.getD p 0 + 1
    let st2 := { st1 with
      userProductCounts := st1.userProductCounts.set u (rowU.set p newCount) }
    let st3 :=
      if newCount = 1 then
        { st2 with uniqueCounts := st2.uniqueCounts.set p (st2.uniqueCounts.getD p 0 + 1) }
      else st2
    let st4 := { st3 with reservedCount := st3.reservedCount.set p (ev.getD 9 "") }
    .ok (gatherConcurrentUsageData ev st4)
  else if ev.getD 0 "" = "IN" then do
    let p ← getIndex (ev.getD 3 "") products
    let u ← getIndex (ev.getD 5 "") users
    let st1 := { st with licenseCounts := st.licenseCounts.set p (ev.getD 7 "") }
    let rowU := st1.userProductCounts.getD u []
    let st2 :=
      if rowU.getD p 0 > 0 then
        { st1 with userProductCounts := st1.userProductCounts.set u (rowU.set p (rowU.getD p 0 - 1)) }
      else st1
    let rowU2 := st2.userProductCounts.getD u []
    let st3 :=
      if rowU2.getD p 0 = 0 ∧ st2.uniqueCounts.getD p 0 > 0 then
        { st2 with uniqueCounts := st2.uniqueCounts.set p (st2.uniqueCounts.getD p 0 - 1) }
      else st2
    if atoiM (st3.licenseCounts.getD p "") > 0 ∧ st3.uniqueCounts.getD p 0 = 0 then
      let st4 := { st3 with uniqueCounts := st3.uniqueCounts.set p 1 }
      let st5 := gatherConcurrentUsageData ev st4
      .ok { st5 with uniqueCounts := st5.uniqueCounts.set p 0 }
    else
      .ok (gatherConcurrentUsageData ev st3)
  else if ev.getD 0 "" = "SHUTDOWN" then
    let st1 := { st with
      licenseCountNumbers := st.licenseCountNumbers.map (fun _ => (0 : Int)),
      uniqueCounts := st.uniqueCounts.map (fun _ => (0 : Int)),
      userProductCounts :=
        st.userProductCounts.map (fun (r : List Int) => r.map (fun _ => (0 : Int))) }
    let st2 := { st1 with licenseCounts := st1.licenseCountNumbers.map toStringI }
    .ok (gatherConcurrentUsageData ev st2)
  else if ev.getD 0 "" = "PRODUCT" then do
    let p ← getIndex (ev.getD 1 "") products
    .ok { st with
      maxCounts := st.maxCounts.set p (ev.getD 3 ""),
      maxReservedCounts := st.maxReservedCounts.set p (ev.getD 4 "") }
  else .ok st

/-- LogData::getConcurrentUsage: fold the replay over the event table. -/
def getConcurrentUsage (products users : List String)
    (events : List (List String)) : Except Unit ConcState :=
  events.foldlM (concStep products users) (initConcState products users)

theorem except_bind_ok {α β : Type} (a : α) (f : α → Except Unit β) :
    (Except.ok a >>= f) = f a := rfl

/-- Claim C6: when the event stream begins with a single IN (no prior OUT)
for a product whose self-reported total-in-use is positive, the accumulator
emits exactly one snapshot row showing unique-user count 1 for that
product, resets the unique count back to 0, and the snapshot for a
following OUT on that product shows a unique count rebuilt from 0 (1, not
2). -/
theorem concUsage_midSessionStart_correction
    (p u h hdl v d1 t1 c1 rsv1 d2 t2 v2 c2 hdl2 rsv2 : String)
    (hc : atoiM c1 > 0) :
    ∃ st1 st2 : ConcState,
      getConcurrentUsage [p] [u]
          [["IN", d1, t1, p, v, u, h, c1, hdl, rsv1]] = .ok st1 ∧
      st1.usage = [concHeader [p], [d1 ++ " " ++ t1, c1, "1", "0", "0", "0"]] ∧
      st1.uniqueCounts = [0] ∧
      getConcurrentUsage [p] [u]
          [["IN", d1, t1, p, v, u, h, c1, hdl, rsv1],
           ["OUT", d2, t2, p, v2, u, h, c2, hdl2, rsv2]] = .ok st2 ∧
      st2.usage = st1.usage ++ [[d2 ++ " " ++ t2, c2, "1", "0", rsv2, "0"]] := by
  have ht1 : toStringI 1 = "1" := rfl
  have ht0 : toStringI 0 = "0" := rfl
  have hrange : List.range 1 = [0] := rfl
  have hs1 : concStep [p] [u] (initConcState [p] [u])
      ["IN", d1, t1, p, v, u, h, c1, hdl, rsv1] =
      .ok { reservedCount := ["0"], licenseCounts := [c1], uniqueCounts := [0],
            userProductCounts := [[0]], maxCounts := ["0"],
            maxReservedCounts := ["0"], licenseCountNumbers := [0],
            usage := [concHeader [p], [d1 ++ " " ++ t1, c1, "1", "0", "0", "0"]] } := by
    simp [concStep, getIndex, initConcState, gatherConcurrentUsageData, snapshotRow,
      concHeader, hc, ht1, ht0, List.replicate, except_bind_ok, hrange]
  have hs2 : concStep [p] [u]
      { reservedCount := ["0"], licenseCounts := [c1], uniqueCounts := [0],
        userProductCounts := [[0]], maxCounts := ["0"],
        maxReservedCounts := ["0"], licenseCountNumbers := [0],
        usage := [concHeader [p], [d1 ++ " " ++ t1, c1, "1", "0", "0", "0"]] }
      ["OUT", d2, t2, p, v2, u, h, c2, hdl2, rsv2] =
      .ok { reservedCount := [rsv2], licenseCounts := [c2], uniqueCounts := [1],
            userProductCounts := [[1]], maxCounts := ["0"],
            maxReservedCounts := ["0"], licenseCountNumbers := [0],
            usage := [concHeader [p], [d1 ++ " " ++ t1, c1, "1", "0", "0", "0"],
                      [d2 ++ " " ++ t2, c2, "1", "0", rsv2, "0"]] } := by
    simp [concStep, getIndex, gatherConcurrentUsageData, snapshotRow,
      ht1, ht0, except_bind_ok, hrange]
  refine ⟨{ reservedCount := ["0"], licenseCounts := [c1], uniqueCounts := [0],
            userProductCounts := [[0]], maxCounts := ["0"],
            maxReservedCounts := ["0"], licenseCountNumbers := [0],
            usage := [concHeader [p], [d1 ++ " " ++ t1, c1, "1", "0", "0", "0"]] },
          { reservedCount := [rsv2], licenseCounts := [c2], uniqueCounts := [1],
            userProductCounts := [[1]], maxCounts := ["0"],
            maxReservedCounts := ["0"], licenseCountNumbers := [0],
            usage := [concHeader [p], [d1 ++ " " ++ t1, c1, "1", "0", "0", "0"],
                      [d2 ++ " " ++ t2, c2, "1", "0", rsv2, "0"]] },
          ?_, rfl, rfl, ?_, rfl⟩
  · simp [getConcurrentUsage, List.foldlM, hs1, except_bind_ok]
  · simp [getConcurrentUsage, List.foldlM, hs1, hs2, except_bind_ok]

/-- Witness for claim C6 at a concrete input: IN with total-in-use 3 first,
then an OUT by the same user. -/
theorem concUsage_midSessionStart_correction_witness :
    atoiM "3" > 0 ∧
    (∃ st1 st2 : ConcState,
      getConcurrentUsage ["p"] ["u"]
          [["IN", "01/02", "03:04", "p", "v", "u", "h", "3", "7", "0"]] = .ok st1 ∧
      st1.usage = [concHeader ["p"],
        ["01/02" ++ " " ++ "03:04", "3", "1", "0", "0", "0"]] ∧
      st1.uniqueCounts = [0] ∧
      getConcurrentUsage ["p"] ["u"]
          [["IN", "01/02", "03:04", "p", "v", "u", "h", "3", "7", "0"],
           ["OUT", "01/02", "03:05", "p", "v", "u", "h", "4", "8", "1"]] = .ok st2 ∧
      st2.usage = st1.usage ++ [["01/02" ++ " " ++ "03:05", "4", "1", "0", "1", "0"]]) :=
  ⟨by decide,
    concUsage_midSessionStart_correction "p" "u" "h" "7" "v" "01/02" "03:04" "3" "0"
      "01/02" "03:05" "v" "4" "8" "1" (by decide)⟩

/-- The nonnegativity invariant of the per-(user, product) live matrix. -/
def MatrixNonneg (st : ConcState) : Prop :=
  ∀ r ∈ st.userProductCounts, ∀ c ∈ r, 0 ≤ c

theorem getD_mem_or_default (l : List α) (i : Nat) (d : α) :
    l.getD i d ∈ l ∨ l.getD i d = d := by
  by_cases h : i < l.length
  · left
    rw [List.getD_eq_getElem l d h]
    exact List.getElem_mem h
  · right
    rw [List.getD_eq_default]
    omega

theorem entry_nonneg {rows : List (List Int)}
    (hp : ∀ r ∈ rows, ∀ c ∈ r, 0 ≤ c) (u p : Nat) :
    0 ≤ (rows.getD u []).getD p 0 := by
  rcases getD_mem_or_default rows u [] with hm | hd
  · rcases getD_mem_or_default (rows.getD u []) p 0 with hm2 | hd2
    · exact hp _ hm _ hm2
    · rw [hd2]
  · rw [hd]
    simp

theorem nonneg_set_entry {rows : List (List Int)}
    (hp : ∀ r ∈ rows, ∀ c ∈ r, 0 ≤ c) (u p : Nat) (v : Int) (hv : 0 ≤ v) :
    ∀ r ∈ rows.set u ((rows.getD u []).set p v), ∀ c ∈ r, 0 ≤ c := by
  intro r hr c hc
  rcases List.mem_or_eq_of_mem_set hr with hrm | hre
  · exact hp r hrm c hc
  · subst hre
    rcases List.mem_or_eq_of_mem_set hc with hcm | hce
    · rcases getD_mem_or_default rows u [] with hm | hd
      · exact hp _ hm c hcm
      · rw [hd] at hcm
        cases hcm
    · subst hce
      exact hv

theorem concStep_matrixNonneg {products users : List String} {st st' : ConcState}
    {ev : List String}
    (h : concStep products users st ev = .ok st') (hp : MatrixNonneg st) :
    MatrixNonneg st' := by
  unfold MatrixNonneg at hp ⊢
  by_cases hOUT : ev.getD 0 "" = "OUT"
  · simp only [concStep] at h
    rw [if_pos hOUT] at h
    cases hgp : getIndex (ev.getD 3 "") products with
    | error e => rw [hgp] at h; cases h
    | ok p =>
      rw [hgp, except_bind_ok] at h
      cases hgu : getIndex (ev.getD 5 "") users with
      | error e => rw [hgu] at h; cases h
      | ok u =>
        rw [hgu, except_bind_ok] at h
        split at h <;>
        · cases h
          dsimp [gatherConcurrentUsageData]
          exact nonneg_set_entry hp u p _ (by have := entry_nonneg hp u p; omega)
  by_cases hIN : ev.getD 0 "" = "IN"
  · simp only [concStep] at h
    rw [if_neg hOUT, if_pos hIN] at h
    cases hgp : getIndex (ev.getD 3 "") products with
    | error e => rw [hgp] at h; cases h
    | ok p =>
      rw [hgp, except_bind_ok] at h
      cases hgu : getIndex (ev.getD 5 "") users with
      | error e => rw [hgu] at h; cases h
      | ok u =>
        rw [hgu, except_bind_ok] at h
        split at h
        · rename_i hguard
          split at h <;> split at h <;>
          · cases h
            dsimp [gatherConcurrentUsageData]
            exact nonneg_set_entry hp u p _ (by have := entry_nonneg hp u p; omega)
        · rename_i hguard
          split at h <;> split at h <;>
          · cases h
            dsimp [gatherConcurrentUsageData]
            exact hp
  by_cases hSHUT : ev.getD 0 "" = "SHUTDOWN"
  · simp only [concStep] at h
    rw [if_neg hOUT, if_neg hIN, if_pos hSHUT] at h
    cases h
    dsimp [gatherConcurrentUsageData]
    intro r hr c hc
    rcases List.mem_map.mp hr with ⟨r0, -, hre⟩
    subst hre
    rcases List.mem_map.mp hc with ⟨c0, -, hce⟩
    subst hce
    exact le_refl 0
  by_cases hPROD : ev.getD 0 "" = "PRODUCT"
  · simp only [concStep] at h
    rw [if_neg hOUT, if_neg hIN, if_neg hSHUT, if_pos hPROD] at h
    cases hgp : getIndex (ev.getD 1 "") products with
    | error e => rw [hgp] at h; cases h
    | ok p =>
      rw [hgp, except_bind_ok] at h
      cases h
      exact hp
  · simp only [concStep] at h
    rw [if_neg hOUT, if_neg hIN, if_neg hSHUT, if_neg hPROD] at h
    cases h
    exact hp

theorem concStep_IN_at_zero {products users : List String} {st0 st1 : ConcState}
    {ev : List String} {u p : Nat}
    (hstep : concStep products users st0 ev = .ok st1)
    (hkind : ev.getD 0 "" = "IN")
    (hgp : getIndex (ev.getD 3 "") products = .ok p)
    (hgu : getIndex (ev.getD 5 "") users = .ok u)
    (hzero : (st0.userProductCounts.getD u []).getD p 0 = 0) :
    (st1.userProductCounts.getD u []).getD p 0 = 0 := by
  simp only [concStep] at hstep
  rw [if_neg (by intro hcon; rw [hkind] at hcon; exact absurd hcon (by decide)),
    if_pos hkind] at hstep
  rw [hgp, except_bind_ok, hgu, except_bind_ok] at hstep
  rw [hzero] at hstep
  rw [if_neg (by decide : ¬((0 : Int) > 0))] at hstep
  split at hstep <;> split at hstep <;>
  · cases hstep
    dsimp [gatherConcurrentUsageData]
    exact hzero

theorem concStep_shutdown_eq {products users : List String} {st st' : ConcState}
    {ev : List String}
    (hkind : ev.getD 0 "" = "SHUTDOWN")
    (h : concStep products users st ev = .ok st') :
    st' = gatherConcurrentUsageData ev
      { st with
        licenseCountNumbers := st.licenseCountNumbers.map (fun _ => (0 : Int)),
        uniqueCounts := st.uniqueCounts.map (fun _ => (0 : Int)),
        userProductCounts :=
          st.userProductCounts.map (fun (r : List Int) => r.map (fun _ => (0 : Int))),
        licenseCounts := (st.licenseCountNumbers.map (fun _ => (0 : Int))).map toStringI } := by
  simp only [concStep] at h
  rw [if_neg (by intro hcon; rw [hkind] at hcon; exact absurd hcon (by decide)),
    if_neg (by intro hcon; rw [hkind] at hcon; exact absurd hcon (by decide)),
    if_pos hkind] at h
  cases h
  rfl

theorem getD_map_const_zero (l : List Int) (p : Nat) :
    (l.map (fun _ => (0 : Int))).getD p 0 = 0 := by
  rcases getD_mem_or_default (l.map (fun _ => (0 : Int))) p 0 with hm | hd
  · rcases List.mem_map.mp hm with ⟨a, -, ha⟩
    exact ha.symm
  · exact hd

theorem getD_map_zero_str (l : List Int) (p : Nat) (hp : p < l.length) :
    ((l.map (fun _ => (0 : Int))).map toStringI).getD p "" = "0" := by
  have hlen : p < ((l.map (fun _ => (0 : Int))).map toStringI).length := by
    simpa using hp
  rw [List.getD_eq_getElem _ _ hlen]
  simp [List.getElem_map]
  rfl

theorem shutdown_snapshot_shape {st : ConcState} {products : List String}
    (ev : List String)
    (hlen : st.licenseCountNumbers.length = products.length) :
    snapshotRow ev
      { st with
        licenseCountNumbers := st.licenseCountNumbers.map (fun _ => (0 : Int)),
        uniqueCounts := st.uniqueCounts.map (fun _ => (0 : Int)),
        userProductCounts :=
          st.userProductCounts.map (fun (r : List Int) => r.map (fun _ => (0 : Int))),
        licenseCounts := (st.licenseCountNumbers.map (fun _ => (0 : Int))).map toStringI } =
      (ev.getD 1 "" ++ " " ++ ev.getD 2 "") ::
        (List.range products.length).flatMap (fun p =>
          ["0", "0", st.maxCounts.getD p "", st.reservedCount.getD p "",
           st.maxReservedCounts.getD p ""]) := by
  unfold snapshotRow
  dsimp only
  have hl2 : ((st.licenseCountNumbers.map (fun _ => (0 : Int))).map toStringI).length =
      products.length := by
    simpa using hlen
  rw [hl2]
  congr 1
  apply List.flatMap_congr
  intro x hx
  have hxlt : x < products.length := List.mem_range.mp hx
  rw [getD_map_zero_str _ _ (by omega), getD_map_const_zero]
  rfl

/-- Claim C7: during the concurrency replay, every per-(user, product) live
checkout count is non-negative after every processed event, and an IN
event arriving when the tracked count for its (user, product) pair is
already 0 leaves that count at 0 rather than driving it to -1. -/
theorem concUsage_live_counts_nonneg
    (products users : List String) (events : List (List String)) (st : ConcState)
    (h : getConcurrentUsage products users events = .ok st) :
    (∀ r ∈ st.userProductCounts, ∀ c ∈ r, 0 ≤ c) ∧
    (∀ st0 st1 : ConcState, ∀ ev : List String, ∀ u p : Nat,
      concStep products users st0 ev = .ok st1 →
      ev.getD 0 "" = "IN" →
      getIndex (ev.getD 3 "") products = .ok p →
      getIndex (ev.getD 5 "") users = .ok u →
      (st0.userProductCounts.getD u []).getD p 0 = 0 →
      (st1.userProductCounts.getD u []).getD p 0 = 0) := by
  constructor
  · have hinit : MatrixNonneg (initConcState products users) := by
      intro r hr c hc
      have hre := List.eq_of_mem_replicate hr
      subst hre
      have hce := List.eq_of_mem_replicate hc
      subst hce
      exact le_refl 0
    unfold getConcurrentUsage at h
    exact foldlM_except_inv (concStep products users) MatrixNonneg
      (fun _ _ _ hs hpp => concStep_matrixNonneg hs hpp) events
      (initConcState products users) st h hinit
  · intro st0 st1 ev u p hstep hkind hgp hgu hzero
    exact concStep_IN_at_zero hstep hkind hgp hgu hzero

/-- State of the accumulator after the single IN event of the C7 witness. -/
def inFirstState : ConcState :=
  { reservedCount := ["0"], licenseCounts := ["3"], uniqueCounts := [0],
    userProductCounts := [[0]], maxCounts := ["0"], maxReservedCounts := ["0"],
    licenseCountNumbers := [0],
    usage := [concHeader ["p"], ["01/02 03:04", "3", "1", "0", "0", "0"]] }

/-- Witness for claim C7 at a concrete input: replaying a single IN with no
prior OUT keeps the per-(user, product) matrix non-negative. -/
theorem concUsage_live_counts_nonneg_witness :
    getConcurrentUsage ["p"] ["u"]
        [["IN", "01/02", "03:04", "p", "v", "u", "h", "3", "7", "0"]] =
      .ok inFirstState ∧
    ((∀ r ∈ inFirstState.userProductCounts, ∀ c ∈ r, 0 ≤ c) ∧
      (∀ st0 st1 : ConcState, ∀ ev : List String, ∀ u p : Nat,
        concStep ["p"] ["u"] st0 ev = .ok st1 →
        ev.getD 0 "" = "IN" →
        getIndex (ev.getD 3 "") ["p"] = .ok p →
        getIndex (ev.getD 5 "") ["u"] = .ok u →
        (st0.userProductCounts.getD u []).getD p 0 = 0 →
        (st1.userProductCounts.getD u []).getD p 0 = 0)) :=
  ⟨rfl,
    concUsage_live_counts_nonneg ["p"] ["u"]
      [["IN", "01/02", "03:04", "p", "v", "u", "h", "3", "7", "0"]] inFirstState rfl⟩

/-- Claim C8: a SHUTDOWN event resets every per-(user, product) live count
and every per-product unique count to zero and emits exactly one snapshot
row, and that row shows total-in-use 0 and unique-user count 0 for every
product. -/
theorem concUsage_shutdown_resets
    (products users : List String) (st st' : ConcState) (ev : List String)
    (hkind : ev.getD 0 "" = "SHUTDOWN")
    (hlen : st.licenseCountNumbers.length = products.length)
    (h : concStep products users st ev = .ok st') :
    (∀ r ∈ st'.userProductCounts, ∀ c ∈ r, c = 0) ∧
    (∀ c ∈ st'.uniqueCounts, c = 0) ∧
    st'.usage = st.usage ++ [(ev.getD 1 "" ++ " " ++ ev.getD 2 "") ::
      (List.range products.length).flatMap (fun p =>
        ["0", "0", st.maxCounts.getD p "", st.reservedCount.getD p "",
         st.maxReservedCounts.getD p ""])] := by
  have heq := concStep_shutdown_eq hkind h
  subst heq
  refine ⟨?_, ?_, ?_⟩
  · intro r hr c hc
    dsimp [gatherConcurrentUsageData] at hr
    rcases List.mem_map.mp hr with ⟨r0, -, hre⟩
    subst hre
    rcases List.mem_map.mp hc with ⟨c0, -, hce⟩
    exact hce.symm
  · intro c hc
    dsimp [gatherConcurrentUsageData] at hc
    rcases List.mem_map.mp hc with ⟨c0, -, hce⟩
    exact hce.symm
  · dsimp [gatherConcurrentUsageData]
    rw [shutdown_snapshot_shape ev hlen]

/-- State of the accumulator just before the SHUTDOWN of the C8 and C10
witnesses: one license out, one unique user, stale reserved count 1. -/
def preShutdownState : ConcState :=
  { reservedCount := ["1"], licenseCounts := ["4"], uniqueCounts := [1],
    userProductCounts := [[1]], maxCounts := ["0"], maxReservedCounts := ["0"],
    licenseCountNumbers := [0],
    usage := [concHeader ["p"], ["01/02 03:05", "4", "1", "0", "1", "0"]] }

/-- The SHUTDOWN record of the C8 and C10 witnesses. -/
def shutdownRow : List String := ["SHUTDOWN", "01/02", "04:00"]

/-- State of the accumulator after that SHUTDOWN. -/
def postShutdownState : ConcState :=
  { reservedCount := ["1"], licenseCounts := ["0"], uniqueCounts := [0],
    userProductCounts := [[0]], maxCounts := ["0"], maxReservedCounts := ["0"],
    licenseCountNumbers := [0],
    usage := [concHeader ["p"], ["01/02 03:05", "4", "1", "0", "1", "0"],
              ["01/02 04:00", "0", "0", "0", "1", "0"]] }

/-- Witness for claim C8 at a concrete input. -/
theorem concUsage_shutdown_resets_witness :
    shutdownRow.getD 0 "" = "SHUTDOWN" ∧
    preShutdownState.licenseCountNumbers.length = (["p"] : List String).length ∧
    concStep ["p"] ["u"] preShutdownState shutdownRow = .ok postShutdownState ∧
    ((∀ r ∈ postShutdownState.userProductCounts, ∀ c ∈ r, c = 0) ∧
      (∀ c ∈ postShutdownState.uniqueCounts, c = 0) ∧
      postShutdownState.usage = preShutdownState.usage ++
        [(shutdownRow.getD 1 "" ++ " " ++ shutdownRow.getD 2 "") ::
          (List.range (["p"] : List String).length).flatMap (fun p =>
            ["0", "0", preShutdownState.maxCounts.getD p "",
             preShutdownState.reservedCount.getD p "",
             preShutdownState.maxReservedCounts.getD p ""])]) :=
  ⟨rfl, rfl, rfl,
    concUsage_shutdown_resets ["p"] ["u"] preShutdownState postShutdownState
      shutdownRow rfl rfl rfl⟩

/-- Claim C10: the snapshot emitted for a SHUTDOWN carries, per product,
the reserved-in-use, configured-limit and reserved-limit values unchanged
from before the shutdown, and the post-shutdown state keeps those three
vectors untouched: the reset zeroes only the live counts and the unique
counts, so stale reserved-in-use values persist into and beyond the
shutdown snapshot. -/
theorem concUsage_shutdown_preserves_reserved
    (products users : List String) (st st' : ConcState) (ev : List String)
    (hkind : ev.getD 0 "" = "SHUTDOWN")
    (hlen : st.licenseCountNumbers.length = products.length)
    (h : concStep products users st ev = .ok st') :
    st'.reservedCount = st.reservedCount ∧
    st'.maxCounts = st.maxCounts ∧
    st'.maxReservedCounts = st.maxReservedCounts ∧
    st'.usage = st.usage ++ [(ev.getD 1 "" ++ " " ++ ev.getD 2 "") ::
      (List.range products.length).flatMap (fun p =>
        ["0", "0", st.maxCounts.getD p "", st.reservedCount.getD p "",
         st.maxReservedCounts.getD p ""])] := by
  have heq := concStep_shutdown_eq hkind h
  subst heq
  refine ⟨rfl, rfl, rfl, ?_⟩
  dsimp [gatherConcurrentUsageData]
  rw [shutdown_snapshot_shape ev hlen]

/-- Witness for claim C10 at a concrete input: the stale reserved-in-use
value 1 survives the shutdown and appears in the shutdown snapshot. -/
theorem concUsage_shutdown_preserves_reserved_witness :
    shutdownRow.getD 0 "" = "SHUTDOWN" ∧
    preShutdownState.licenseCountNumbers.length = (["p"] : List String).length ∧
    concStep ["p"] ["u"] preShutdownState shutdownRow = .ok postShutdownState ∧
    (postShutdownState.reservedCount = preShutdownState.reservedCount ∧
      postShutdownState.maxCounts = preShutdownState.maxCounts ∧
      postShutdownState.maxReservedCounts = preShutdownState.maxReservedCounts ∧
      postShutdownState.usage = preShutdownState.usage ++
        [(shutdownRow.getD 1 "" ++ " " ++ shutdownRow.getD 2 "") ::
          (List.range (["p"] : List String).length).flatMap (fun p =>
            ["0", "0", preShutdownState.maxCounts.getD p "",
             preShutdownState.reservedCount.getD p "",
             preShutdownState.maxReservedCounts.getD p ""])]) :=
  ⟨rfl, rfl, rfl,
    concUsage_shutdown_preserves_reserved ["p"] ["u"] preShutdownState
      postShutdownState shutdownRow rfl rfl rfl⟩

/-- Claim C2 (code evaluation): the format detector does not stop at line
20.  A file whose first 21 lines carry no marker but whose 22nd line holds
the report-log marker is classified ReportLog, while the claim (and the
code's own comment about linesToSearch) says InvalidFormat must be raised
regardless of what appears after line 20. -/
theorem findFileFormat_scans_past_line_20 :
    findFileFormat (List.replicate 21 "x" ++ ["RLM Report Log Format"]) =
      .ok FileFormat.ReportLog := by
  rfl

/-- Claim C1 (code evaluation): a tokenized OUT row with 12 fields has
fewer fields than the OUT schema requires (date lives at source column 16
and time at 17, so 18 fields are needed), yet loadEventIntoVector does not
raise EventDataException: its guard only compares against the schema's
entry count 10, and the projection then dies on the out-of-range access. -/
theorem loadEventIntoVector_out_short_row_not_eventData :
    loadEventIntoVector ("OUT" :: List.replicate 11 "x") 0 OUTindices =
        .error ExtErr.outOfRange ∧
      ("OUT" :: List.replicate 11 "x").length < 18 := by
  exact ⟨rfl, by decide⟩

end LICLog
